import Mathlib

/-! # Confluence server API client: a shallow embedding of `confluence.go`

The client builds a `Page`, serialises it with `encoding/json`, sends it with
`net/http` using Basic authentication and decodes the JSON reply over the same
`Page`.  The definitions below follow `confluence.go` function by function.

The Go standard library is not part of the repository.  The parts of it the
client's behaviour depends on are modelled here from their documented
behaviour and kept next to the code that calls them:

* `unicode/utf8` and `encoding/base64` at the level of bytes;
* `encoding/json` at the level of JSON values (the text of a document is not
  modelled): which members a struct is encoded to, and how a JSON value is
  stored into a struct;
* `net/url` and `net/http`: `ParseRequestURI`, `Parse` and `NewRequest`.

What the client merely passes through (the network, `(*url.URL).String`, the
parsing of a URL authority) is a
field of `Env`, and every theorem holds for every `Env`.
-/

namespace Confluence

/-! ## Go strings -/

/-- A Go `string`: a sequence of bytes, which need not be valid UTF-8. -/
abbrev GoString := List UInt8

/-- The Go string written as an ASCII string literal in the source. -/
def lit (s : String) : GoString := s.data.map fun c => UInt8.ofNat c.toNat

/-- Errors, by the place that raises them. -/
inductive Error where
  /-- The `errors.New` of `NewAPI`. -/
  | config (msg : String)
  /-- An error of `net/url`. -/
  | url (msg : String)
  /-- An error of `http.NewRequest`. -/
  | request (msg : String)
  /-- An error of `(*http.Client).Do`: the exchange itself failed. -/
  | transport (msg : String)
  /-- The response body is not a JSON document (`*json.SyntaxError`, `io.EOF`). -/
  | malformed (msg : String)
  /-- A JSON value does not fit the Go type it is stored into (`*json.UnmarshalTypeError`). -/
  | unmarshalType (value : String) (goType : String)
deriving DecidableEq

/-! ## `unicode/utf8` -/

/-- The rune `utf8.RuneError`, U+FFFD. -/
def RuneError : Nat := 0xFFFD

/-- The table `utf8.first`: information about the first byte of a UTF-8
sequence.  `0xF0` is ASCII, `0xF1` is an invalid first byte; otherwise the low
three bits are the length of the sequence and the high four bits index
`acceptRanges`. -/
def first (b : UInt8) : Nat :=
  let n := b.toNat
  if n < 0x80 then 0xF0
  else if n < 0xC2 then 0xF1
  else if n < 0xE0 then 0x02
  else if n = 0xE0 then 0x13
  else if n < 0xED then 0x03
  else if n = 0xED then 0x23
  else if n < 0xF0 then 0x03
  else if n = 0xF0 then 0x34
  else if n < 0xF4 then 0x04
  else if n = 0xF4 then 0x44
  else 0xF1

/-- The table `utf8.acceptRanges`: the range allowed for the second byte. -/
def acceptRanges (i : Nat) : Nat × Nat :=
  match i with
  | 0 => (0x80, 0xBF)
  | 1 => (0xA0, 0xBF)
  | 2 => (0x80, 0x9F)
  | 3 => (0x90, 0xBF)
  | 4 => (0x80, 0x8F)
  | _ => (0, 0)

/-- Whether `c` is outside the range of a continuation byte. -/
def notCont (c : UInt8) : Bool := c.toNat < 0x80 || 0xBF < c.toNat

/-- Function `utf8.DecodeRuneInString`: the first rune of `s` and its width in bytes;
`(RuneError, 1)` for an invalid encoding, `(RuneError, 0)` for the empty
string. -/
def DecodeRuneInString (s : GoString) : Nat × Nat :=
  match s with
  | [] => (RuneError, 0)
  | s0 :: t =>
    let x := first s0
    if x ≥ 0xF0 then
      (if x = 0xF0 then s0.toNat else RuneError, 1)
    else
      let sz := x % 8
      let accept := acceptRanges (x / 16)
      if s.length < sz then (RuneError, 1)
      else
        match t with
        | [] => (RuneError, 1)
        | s1 :: t1 =>
          if s1.toNat < accept.1 || accept.2 < s1.toNat then (RuneError, 1)
          else if sz ≤ 2 then ((s0.toNat % 32) * 64 + s1.toNat % 64, 2)
          else
            match t1 with
            | [] => (RuneError, 1)
            | s2 :: t2 =>
              if notCont s2 then (RuneError, 1)
              else if sz ≤ 3 then
                ((s0.toNat % 16) * 4096 + (s1.toNat % 64) * 64 + s2.toNat % 64, 3)
              else
                match t2 with
                | [] => (RuneError, 1)
                | s3 :: _ =>
                  if notCont s3 then (RuneError, 1)
                  else
                    ((s0.toNat % 8) * 262144 + (s1.toNat % 64) * 4096
                      + (s2.toNat % 64) * 64 + s3.toNat % 64, 4)

/-- Function `utf8.ValidString`: whether `s` consists entirely of valid UTF-8-encoded
runes. -/
def ValidString : GoString → Bool
  | [] => true
  | si :: t =>
    if si.toNat < 0x80 then ValidString t
    else
      let x := first si
      if x = 0xF1 then false
      else
        let size := x % 8
        let accept := acceptRanges (x / 16)
        match t with
        | [] => false
        | c1 :: t1 =>
          if c1.toNat < accept.1 || accept.2 < c1.toNat then false
          else if size = 2 then ValidString t1
          else
            match t1 with
            | [] => false
            | c2 :: t2 =>
              if notCont c2 then false
              else if size = 3 then ValidString t2
              else
                match t2 with
                | [] => false
                | c3 :: t3 => if notCont c3 then false else ValidString t3

/-! ## `encoding/base64` -/

/-- The alphabet of `base64.StdEncoding`. -/
def encodeStd : GoString :=
  lit "ABCDEFGHIJKLMNOPQRSTUVWXYZabcdefghijklmnopqrstuvwxyz0123456789+/"

/-- The character of the alphabet for a 6-bit value: `enc.encode[i]`. -/
def encodeChar (i : Nat) : UInt8 := encodeStd.getD i 0

/-- The padding character `base64.StdPadding`. -/
def padChar : UInt8 := 61

/-- Function `base64.StdEncoding.EncodeToString`: three source bytes become four
characters; a last block of one or two bytes is padded with `=`. -/
def EncodeToString : GoString → GoString
  | [] => []
  | [a] =>
    let val := a.toNat * 65536
    [encodeChar (val / 262144 % 64), encodeChar (val / 4096 % 64), padChar, padChar]
  | [a, b] =>
    let val := a.toNat * 65536 + b.toNat * 256
    [encodeChar (val / 262144 % 64), encodeChar (val / 4096 % 64),
      encodeChar (val / 64 % 64), padChar]
  | a :: b :: c :: rest =>
    let val := a.toNat * 65536 + b.toNat * 256 + c.toNat
    encodeChar (val / 262144 % 64) :: encodeChar (val / 4096 % 64)
      :: encodeChar (val / 64 % 64) :: encodeChar (val % 64) :: EncodeToString rest

/-- The inverse of the alphabet: `enc.decodeMap`, `none` for a byte outside it. -/
def decodeMap (c : UInt8) : Option Nat :=
  let n := c.toNat
  if 65 ≤ n ∧ n ≤ 90 then some (n - 65)
  else if 97 ≤ n ∧ n ≤ 122 then some (n - 97 + 26)
  else if 48 ≤ n ∧ n ≤ 57 then some (n - 48 + 52)
  else if n = 43 then some 62
  else if n = 47 then some 63
  else none

/-- Decoding of padded standard base64 (RFC 4648 §4), the inverse the
`Authorization` header is read with: four characters give three bytes, a final
block may end in `=` or `==`; `none` for input that is not such an encoding. -/
def DecodeString : GoString → Option GoString
  | [] => some []
  | [c0, c1, c2, c3] =>
    match decodeMap c0, decodeMap c1 with
    | some v0, some v1 =>
      if c2 = padChar then
        if c3 = padChar ∧ v1 % 16 = 0 then some [UInt8.ofNat (v0 * 4 + v1 / 16)] else none
      else
        match decodeMap c2 with
        | none => none
        | some v2 =>
          if c3 = padChar then
            if v2 % 4 = 0 then
              some [UInt8.ofNat (v0 * 4 + v1 / 16), UInt8.ofNat (v1 % 16 * 16 + v2 / 4)]
            else none
          else
            match decodeMap c3 with
            | none => none
            | some v3 =>
              some [UInt8.ofNat (v0 * 4 + v1 / 16), UInt8.ofNat (v1 % 16 * 16 + v2 / 4),
                UInt8.ofNat (v2 % 4 * 64 + v3)]
    | _, _ => none
  | c0 :: c1 :: c2 :: c3 :: rest =>
    match decodeMap c0, decodeMap c1, decodeMap c2, decodeMap c3, DecodeString rest with
    | some v0, some v1, some v2, some v3, some out =>
      some (UInt8.ofNat (v0 * 4 + v1 / 16) :: UInt8.ofNat (v1 % 16 * 16 + v2 / 4)
        :: UInt8.ofNat (v2 % 4 * 64 + v3) :: out)
    | _, _, _, _, _ => none
  | _ => none

/-! ## `encoding/json`: JSON values -/

/-- A JSON value, as `encoding/json` reads or writes it.  The content of a
string is kept as the UTF-8 bytes it denotes; a number is either an integer
literal or a literal with a fraction or an exponent, kept as text. -/
inductive JSON where
  | null
  | bool (b : Bool)
  | int (n : Int)
  | dec (text : String)
  | str (s : GoString)
  | arr (elems : List JSON)
  | obj (members : List (String × JSON))

/-- How `UnmarshalTypeError.Value` names a JSON value. -/
def JSON.kind : JSON → String
  | .null => "null"
  | .bool _ => "bool"
  | .int _ => "number"
  | .dec _ => "number"
  | .str _ => "string"
  | .arr _ => "array"
  | .obj _ => "object"

/-- The members of a JSON object; none for any other value. -/
def JSON.members : JSON → List (String × JSON)
  | .obj ms => ms
  | _ => []

/-- Whether the JSON value is an object that has a member named `key`. -/
def JSON.hasKey (j : JSON) (key : String) : Bool :=
  j.members.any fun m => m.1 == key

/-- The value of the first member named `key` of a JSON object. -/
def JSON.get (j : JSON) (key : String) : Option JSON :=
  (j.members.find? fun m => m.1 == key).map Prod.snd

/-- The string loop of the encoder (`appendString` in `encode.go`), at the
level of the bytes the written literal denotes: ASCII bytes and valid
multi-byte sequences are kept, and each byte that does not start a valid
sequence is written as `\ufffd`, that is U+FFFD.  The first argument bounds
the number of iterations. -/
def appendStringAux : Nat → GoString → GoString
  | 0, _ => []
  | n + 1, s =>
    match s with
    | [] => []
    | b :: t =>
      if b.toNat < 0x80 then b :: appendStringAux n t
      else
        let r := DecodeRuneInString s
        if r.1 = RuneError ∧ r.2 = 1 then
          [0xEF, 0xBF, 0xBD] ++ appendStringAux n t
        else
          s.take r.2 ++ appendStringAux n (s.drop r.2)

/-- The content of the JSON string that a Go string is encoded to. -/
def appendString (s : GoString) : GoString := appendStringAux s.length s

/-- The value of a struct field as the encoder sees it (`reflect.Value`),
for the kinds of field the data model has.  A pointer and the elements of a
slice carry the encoding of what they point to. -/
inductive FieldVal where
  | string (s : GoString)
  | int (n : Int)
  | bool (b : Bool)
  | ptr (p : Option JSON)
  | slice (elems : List JSON)

/-- A struct field with the name of its `json` tag.  Every field of the data
model is tagged `omitempty`. -/
structure Field where
  name : String
  val : FieldVal

/-- The function `isEmptyValue` of `encode.go`. -/
def isEmptyValue : FieldVal → Bool
  | .string s => s.length == 0
  | .int n => n == 0
  | .bool b => b == false
  | .ptr p => p.isNone
  | .slice elems => elems.length == 0

/-- The encoding of a field value that is not empty. -/
def FieldVal.toJSON : FieldVal → JSON
  | .string s => .str (appendString s)
  | .int n => .int n
  | .bool b => .bool b
  | .ptr none => .null
  | .ptr (some j) => j
  | .slice elems => .arr elems

/-- The struct encoder: the fields in declaration order, an `omitempty` field
being skipped when `isEmptyValue` holds of it. -/
def structEncode (fields : List Field) : JSON :=
  .obj (fields.filterMap fun f =>
    if isEmptyValue f.val then none else some (f.name, f.val.toJSON))

/-! ## `encoding/json`: storing a JSON value into a Go value

Every function takes the current Go value and returns the value after
decoding together with the error saved while decoding, if any: a value of the
wrong type is skipped, the rest is still decoded, and the first such error is
what `Decode` returns. -/

/-- Case folding of a member name, as far as it can make a name equal to an
ASCII field name: ASCII letters are upper-cased, and the two non-ASCII
characters whose simple case folding is an ASCII letter (the Kelvin sign and
the long s) are mapped to it. -/
def foldChar (c : Char) : Char :=
  if 97 ≤ c.toNat ∧ c.toNat ≤ 122 then Char.ofNat (c.toNat - 32)
  else if c.toNat = 0x212A then Char.ofNat 75
  else if c.toNat = 0x17F then Char.ofNat 83
  else c

/-- Folding of a name, character by character. -/
def foldName (s : String) : String := String.mk (s.data.map foldChar)

/-- The field a member name denotes: a field with exactly that name, and
otherwise the first field whose name is equal to it under case folding.  A
name that denotes no field is ignored by the decoder. -/
def fieldIndex (names : List String) (key : String) : Option Nat :=
  match names.findIdx? fun n => n == key with
  | some i => some i
  | none => names.findIdx? fun n => foldName n == foldName key

/-- Chaining of the saved error: the first error is kept. -/
def saveError (saved new : Option Error) : Option Error :=
  match saved with
  | some e => some e
  | none => new

/-- Applies the outcome of decoding a field to the struct that holds it. -/
def store {α β : Type} (r : β × Option Error) (put : β → α) : α × Option Error :=
  (put r.1, r.2)

/-- A JSON value stored into a `string`. -/
def decodeString (old : GoString) (j : JSON) : GoString × Option Error :=
  match j with
  | .null => (old, none)
  | .str s => (s, none)
  | _ => (old, some (.unmarshalType j.kind "string"))

/-- A JSON value stored into an `int` (64 bits). -/
def decodeInt (old : Int) (j : JSON) : Int × Option Error :=
  match j with
  | .null => (old, none)
  | .int n =>
    if -9223372036854775808 ≤ n ∧ n ≤ 9223372036854775807 then (n, none)
    else (old, some (.unmarshalType "number" "int"))
  | _ => (old, some (.unmarshalType j.kind "int"))

/-- A JSON value stored into a `bool`. -/
def decodeBool (old : Bool) (j : JSON) : Bool × Option Error :=
  match j with
  | .null => (old, none)
  | .bool b => (b, none)
  | _ => (old, some (.unmarshalType j.kind "bool"))

/-- A JSON value stored into a pointer: `null` sets it to nil; for any other
value a nil pointer is first made to point to a new zero value, and the value
is stored into what the pointer points to. -/
def decodePtr {α : Type} (zero : α) (dec : α → JSON → α × Option Error)
    (old : Option α) (j : JSON) : Option α × Option Error :=
  match j with
  | .null => (none, none)
  | _ => store (dec (old.getD zero) j) some

/-- A JSON value stored into a struct: the members of an object are stored
one after the other into the field each names; `null` changes nothing. -/
def decodeStruct {α : Type} (names : List String) (set : α → Nat → JSON → α × Option Error)
    (goType : String) (v : α) (j : JSON) : α × Option Error :=
  match j with
  | .null => (v, none)
  | .obj members =>
    members.foldl (fun acc m =>
      match fieldIndex names m.1 with
      | none => acc
      | some i => let r := set acc.1 i m.2; (r.1, saveError acc.2 r.2)) (v, none)
  | _ => (v, some (.unmarshalType j.kind goType))

/-- The elements of a JSON array stored into a slice: element `i` is stored
into the existing element `i`, or into a zero element past the old length. -/
def decodeElems {α : Type} (zero : α) (dec : α → JSON → α × Option Error) :
    List α → List JSON → List α × Option Error
  | _, [] => ([], none)
  | old, j :: js =>
    let r := dec (old.headD zero) j
    let rs := decodeElems zero dec old.tail js
    (r.1 :: rs.1, saveError r.2 rs.2)

/-- A JSON value stored into a slice: `null` empties it, an array replaces
its elements, its length becoming that of the array. -/
def decodeSlice {α : Type} (zero : α) (dec : α → JSON → α × Option Error)
    (goType : String) (old : List α) (j : JSON) : List α × Option Error :=
  match j with
  | .null => ([], none)
  | .arr elems => decodeElems zero dec old elems
  | _ => (old, some (.unmarshalType j.kind goType))

/-! ## The data model (`confluence.go`, lines 24 to 124)

A pointer field is an `Option`, nil being `none`; the default of every field is
its Go zero value, so that `{}` is the zero value of a struct.  A slice is a
list: a nil slice and an empty slice are both `[]`, which neither the encoder
(`omitempty`) nor the client tells apart.  An `int` is an integer; the decoder
stores only the values of a 64-bit `int`. -/

/-- The struct `ProfilePicture`. -/
structure ProfilePicture where
  Path : GoString := []
  Width : Int := 0
  Height : Int := 0
  IsDefault : Bool := false
deriving DecidableEq

/-- The struct `Expendable`. -/
structure Expendable where
  Ancestors : GoString := []
  Children : GoString := []
  Container : GoString := []
  Content : GoString := []
  History : GoString := []
  Metadata : GoString := []
  Icon : GoString := []
  Space : GoString := []
  Description : GoString := []
  Homepage : GoString := []
  Version : GoString := []
  LastUpdated : GoString := []
  PreviousVersion : GoString := []
  Contributors : GoString := []
  NextVersion : GoString := []
deriving DecidableEq

/-- The struct `Links`. -/
structure Links where
  Base : GoString := []
  Collection : GoString := []
  Self : GoString := []
  Tinyui : GoString := []
  Webui : GoString := []
deriving DecidableEq

/-- The struct `By`. -/
structure By where
  «Type» : GoString := []
  Username : GoString := []
  UserKey : GoString := []
  ProfilePicture : Option ProfilePicture := none
  DisplayName : GoString := []
  Links : Option Links := none
  Expendable : Option Expendable := none
deriving DecidableEq

/-- The struct `History`. -/
structure History where
  Latest : Bool := false
  CreatedBy : Option By := none
deriving DecidableEq

/-- The struct `Storage`. -/
structure Storage where
  Representation : GoString := []
  Value : GoString := []
  Expendable : Option Expendable := none
deriving DecidableEq

/-- The struct `BodyPart`. -/
structure BodyPart where
  Expendable : Option Expendable := none
deriving DecidableEq

/-- The struct `Body`. -/
structure Body where
  Editor : Option BodyPart := none
  Representation : GoString := []
  Value : GoString := []
  Storage : Option Storage := none
deriving DecidableEq

/-- The struct `Space`. -/
structure Space where
  ID : Int := 0
  Key : GoString := []
  Name : GoString := []
  «Type» : GoString := []
  Links : Option Links := none
  Expendable : Option Expendable := none
deriving DecidableEq

/-- The struct `Version`. -/
structure Version where
  By : Option By := none
  When : GoString := []
  Message : GoString := []
  Number : Int := 0
  MinorEdit : Bool := false
  Hidden : Bool := false
  Links : Option Links := none
  Expendable : Option Expendable := none
deriving DecidableEq

/-- The struct `Ancestor`. -/
structure Ancestor where
  ID : GoString := []
deriving DecidableEq

/-- The struct `Page`; `Ancestors` is a slice of pointers. -/
structure Page where
  Expendable : Option Expendable := none
  Links : Option Links := none
  ID : GoString := []
  Title : GoString := []
  «Type» : GoString := []
  Body : Option Body := none
  Status : GoString := []
  Space : Option Space := none
  Version : Option Version := none
  Ancestors : List (Option Ancestor) := []
deriving DecidableEq

/-! ### Encoding: the fields of each struct with their `json` tags -/

/-- The fields of `ProfilePicture` as the encoder sees them, in declaration order. -/
def ProfilePicture.fields (v : ProfilePicture) : List Field :=
  [⟨"path", .string v.Path⟩,
    ⟨"width", .int v.Width⟩,
    ⟨"height", .int v.Height⟩,
    ⟨"isDefault", .bool v.IsDefault⟩]

/-- The JSON encoding of `ProfilePicture`. -/
def ProfilePicture.toJSON (v : ProfilePicture) : JSON := structEncode v.fields

/-- The fields of `Expendable` as the encoder sees them, in declaration order. -/
def Expendable.fields (v : Expendable) : List Field :=
  [⟨"ancestors", .string v.Ancestors⟩,
    ⟨"children", .string v.Children⟩,
    ⟨"container", .string v.Container⟩,
    ⟨"content", .string v.Content⟩,
    ⟨"history", .string v.History⟩,
    ⟨"metadata", .string v.Metadata⟩,
    ⟨"icon", .string v.Icon⟩,
    ⟨"space", .string v.Space⟩,
    ⟨"description", .string v.Description⟩,
    ⟨"homepage", .string v.Homepage⟩,
    ⟨"version", .string v.Version⟩,
    ⟨"lastUpdated", .string v.LastUpdated⟩,
    ⟨"previousVersion", .string v.PreviousVersion⟩,
    ⟨"contributors", .string v.Contributors⟩,
    ⟨"nextVersion", .string v.NextVersion⟩]

/-- The JSON encoding of `Expendable`. -/
def Expendable.toJSON (v : Expendable) : JSON := structEncode v.fields

/-- The fields of `Links` as the encoder sees them, in declaration order. -/
def Links.fields (v : Links) : List Field :=
  [⟨"base", .string v.Base⟩,
    ⟨"collection", .string v.Collection⟩,
    ⟨"self", .string v.Self⟩,
    ⟨"tinyui", .string v.Tinyui⟩,
    ⟨"webui", .string v.Webui⟩]

/-- The JSON encoding of `Links`. -/
def Links.toJSON (v : Links) : JSON := structEncode v.fields

/-- The fields of `By` as the encoder sees them, in declaration order. -/
def By.fields (v : By) : List Field :=
  [⟨"type", .string v.«Type»⟩,
    ⟨"username", .string v.Username⟩,
    ⟨"userKey", .string v.UserKey⟩,
    ⟨"profilePicture", .ptr (v.ProfilePicture.map ProfilePicture.toJSON)⟩,
    ⟨"displayName", .string v.DisplayName⟩,
    ⟨"_links", .ptr (v.Links.map Links.toJSON)⟩,
    ⟨"_expandable", .ptr (v.Expendable.map Expendable.toJSON)⟩]

/-- The JSON encoding of `By`. -/
def By.toJSON (v : By) : JSON := structEncode v.fields

/-- The fields of `History` as the encoder sees them, in declaration order. -/
def History.fields (v : History) : List Field :=
  [⟨"latest", .bool v.Latest⟩,
    ⟨"createdBy", .ptr (v.CreatedBy.map By.toJSON)⟩]

/-- The JSON encoding of `History`. -/
def History.toJSON (v : History) : JSON := structEncode v.fields

/-- The fields of `Storage` as the encoder sees them, in declaration order. -/
def Storage.fields (v : Storage) : List Field :=
  [⟨"representation", .string v.Representation⟩,
    ⟨"value", .string v.Value⟩,
    ⟨"_expandable", .ptr (v.Expendable.map Expendable.toJSON)⟩]

/-- The JSON encoding of `Storage`. -/
def Storage.toJSON (v : Storage) : JSON := structEncode v.fields

/-- The fields of `BodyPart` as the encoder sees them, in declaration order. -/
def BodyPart.fields (v : BodyPart) : List Field :=
  [⟨"_expandable", .ptr (v.Expendable.map Expendable.toJSON)⟩]

/-- The JSON encoding of `BodyPart`. -/
def BodyPart.toJSON (v : BodyPart) : JSON := structEncode v.fields

/-- The fields of `Body` as the encoder sees them, in declaration order. -/
def Body.fields (v : Body) : List Field :=
  [⟨"editor", .ptr (v.Editor.map BodyPart.toJSON)⟩,
    ⟨"representation", .string v.Representation⟩,
    ⟨"value", .string v.Value⟩,
    ⟨"storage", .ptr (v.Storage.map Storage.toJSON)⟩]

/-- The JSON encoding of `Body`. -/
def Body.toJSON (v : Body) : JSON := structEncode v.fields

/-- The fields of `Space` as the encoder sees them, in declaration order. -/
def Space.fields (v : Space) : List Field :=
  [⟨"id", .int v.ID⟩,
    ⟨"key", .string v.Key⟩,
    ⟨"name", .string v.Name⟩,
    ⟨"type", .string v.«Type»⟩,
    ⟨"_links", .ptr (v.Links.map Links.toJSON)⟩,
    ⟨"_expandable", .ptr (v.Expendable.map Expendable.toJSON)⟩]

/-- The JSON encoding of `Space`. -/
def Space.toJSON (v : Space) : JSON := structEncode v.fields

/-- The fields of `Version` as the encoder sees them, in declaration order. -/
def Version.fields (v : Version) : List Field :=
  [⟨"by", .ptr (v.By.map By.toJSON)⟩,
    ⟨"when", .string v.When⟩,
    ⟨"message", .string v.Message⟩,
    ⟨"number", .int v.Number⟩,
    ⟨"minorEdit", .bool v.MinorEdit⟩,
    ⟨"hidden", .bool v.Hidden⟩,
    ⟨"_links", .ptr (v.Links.map Links.toJSON)⟩,
    ⟨"_expandable", .ptr (v.Expendable.map Expendable.toJSON)⟩]

/-- The JSON encoding of `Version`. -/
def Version.toJSON (v : Version) : JSON := structEncode v.fields

/-- The fields of `Ancestor` as the encoder sees them, in declaration order. -/
def Ancestor.fields (v : Ancestor) : List Field :=
  [⟨"id", .string v.ID⟩]

/-- The JSON encoding of `Ancestor`. -/
def Ancestor.toJSON (v : Ancestor) : JSON := structEncode v.fields

/-- The fields of `Page` as the encoder sees them, in declaration order. -/
def Page.fields (v : Page) : List Field :=
  [⟨"_expandable", .ptr (v.Expendable.map Expendable.toJSON)⟩,
    ⟨"_links", .ptr (v.Links.map Links.toJSON)⟩,
    ⟨"id", .string v.ID⟩,
    ⟨"title", .string v.Title⟩,
    ⟨"type", .string v.«Type»⟩,
    ⟨"body", .ptr (v.Body.map Body.toJSON)⟩,
    ⟨"status", .string v.Status⟩,
    ⟨"space", .ptr (v.Space.map Space.toJSON)⟩,
    ⟨"version", .ptr (v.Version.map Version.toJSON)⟩,
    ⟨"ancestors", .slice (v.Ancestors.map fun a => (a.map Ancestor.toJSON).getD .null)⟩]

/-- The JSON encoding of `Page`. -/
def Page.toJSON (v : Page) : JSON := structEncode v.fields

/-! ### Decoding: storing a member into the field it names -/

/-- The names of the fields of `ProfilePicture`. -/
def ProfilePicture.names : List String := (({} : ProfilePicture).fields).map Field.name

/-- A JSON value stored into field `i` of `ProfilePicture`. -/
def ProfilePicture.set (v : ProfilePicture) (i : Nat) (j : JSON) : ProfilePicture × Option Error :=
  match i with
  | 0 => store (decodeString v.Path j) fun x => { v with Path := x }
  | 1 => store (decodeInt v.Width j) fun x => { v with Width := x }
  | 2 => store (decodeInt v.Height j) fun x => { v with Height := x }
  | 3 => store (decodeBool v.IsDefault j) fun x => { v with IsDefault := x }
  | _ => (v, none)

/-- A JSON value stored into a `ProfilePicture`. -/
def ProfilePicture.decode (v : ProfilePicture) (j : JSON) : ProfilePicture × Option Error :=
  decodeStruct ProfilePicture.names ProfilePicture.set "confluence.ProfilePicture" v j

/-- The names of the fields of `Expendable`. -/
def Expendable.names : List String := (({} : Expendable).fields).map Field.name

/-- A JSON value stored into field `i` of `Expendable`. -/
def Expendable.set (v : Expendable) (i : Nat) (j : JSON) : Expendable × Option Error :=
  match i with
  | 0 => store (decodeString v.Ancestors j) fun x => { v with Ancestors := x }
  | 1 => store (decodeString v.Children j) fun x => { v with Children := x }
  | 2 => store (decodeString v.Container j) fun x => { v with Container := x }
  | 3 => store (decodeString v.Content j) fun x => { v with Content := x }
  | 4 => store (decodeString v.History j) fun x => { v with History := x }
  | 5 => store (decodeString v.Metadata j) fun x => { v with Metadata := x }
  | 6 => store (decodeString v.Icon j) fun x => { v with Icon := x }
  | 7 => store (decodeString v.Space j) fun x => { v with Space := x }
  | 8 => store (decodeString v.Description j) fun x => { v with Description := x }
  | 9 => store (decodeString v.Homepage j) fun x => { v with Homepage := x }
  | 10 => store (decodeString v.Version j) fun x => { v with Version := x }
  | 11 => store (decodeString v.LastUpdated j) fun x => { v with LastUpdated := x }
  | 12 => store (decodeString v.PreviousVersion j) fun x => { v with PreviousVersion := x }
  | 13 => store (decodeString v.Contributors j) fun x => { v with Contributors := x }
  | 14 => store (decodeString v.NextVersion j) fun x => { v with NextVersion := x }
  | _ => (v, none)

/-- A JSON value stored into a `Expendable`. -/
def Expendable.decode (v : Expendable) (j : JSON) : Expendable × Option Error :=
  decodeStruct Expendable.names Expendable.set "confluence.Expendable" v j

/-- The names of the fields of `Links`. -/
def Links.names : List String := (({} : Links).fields).map Field.name

/-- A JSON value stored into field `i` of `Links`. -/
def Links.set (v : Links) (i : Nat) (j : JSON) : Links × Option Error :=
  match i with
  | 0 => store (decodeString v.Base j) fun x => { v with Base := x }
  | 1 => store (decodeString v.Collection j) fun x => { v with Collection := x }
  | 2 => store (decodeString v.Self j) fun x => { v with Self := x }
  | 3 => store (decodeString v.Tinyui j) fun x => { v with Tinyui := x }
  | 4 => store (decodeString v.Webui j) fun x => { v with Webui := x }
  | _ => (v, none)

/-- A JSON value stored into a `Links`. -/
def Links.decode (v : Links) (j : JSON) : Links × Option Error :=
  decodeStruct Links.names Links.set "confluence.Links" v j

/-- The names of the fields of `By`. -/
def By.names : List String := (({} : By).fields).map Field.name

/-- A JSON value stored into field `i` of `By`. -/
def By.set (v : By) (i : Nat) (j : JSON) : By × Option Error :=
  match i with
  | 0 => store (decodeString v.«Type» j) fun x => { v with «Type» := x }
  | 1 => store (decodeString v.Username j) fun x => { v with Username := x }
  | 2 => store (decodeString v.UserKey j) fun x => { v with UserKey := x }
  | 3 => store (decodePtr {} ProfilePicture.decode v.ProfilePicture j) fun x => { v with ProfilePicture := x }
  | 4 => store (decodeString v.DisplayName j) fun x => { v with DisplayName := x }
  | 5 => store (decodePtr {} Links.decode v.Links j) fun x => { v with Links := x }
  | 6 => store (decodePtr {} Expendable.decode v.Expendable j) fun x => { v with Expendable := x }
  | _ => (v, none)

/-- A JSON value stored into a `By`. -/
def By.decode (v : By) (j : JSON) : By × Option Error :=
  decodeStruct By.names By.set "confluence.By" v j

/-- The names of the fields of `History`. -/
def History.names : List String := (({} : History).fields).map Field.name

/-- A JSON value stored into field `i` of `History`. -/
def History.set (v : History) (i : Nat) (j : JSON) : History × Option Error :=
  match i with
  | 0 => store (decodeBool v.Latest j) fun x => { v with Latest := x }
  | 1 => store (decodePtr {} By.decode v.CreatedBy j) fun x => { v with CreatedBy := x }
  | _ => (v, none)

/-- A JSON value stored into a `History`. -/
def History.decode (v : History) (j : JSON) : History × Option Error :=
  decodeStruct History.names History.set "confluence.History" v j

/-- The names of the fields of `Storage`. -/
def Storage.names : List String := (({} : Storage).fields).map Field.name

/-- A JSON value stored into field `i` of `Storage`. -/
def Storage.set (v : Storage) (i : Nat) (j : JSON) : Storage × Option Error :=
  match i with
  | 0 => store (decodeString v.Representation j) fun x => { v with Representation := x }
  | 1 => store (decodeString v.Value j) fun x => { v with Value := x }
  | 2 => store (decodePtr {} Expendable.decode v.Expendable j) fun x => { v with Expendable := x }
  | _ => (v, none)

/-- A JSON value stored into a `Storage`. -/
def Storage.decode (v : Storage) (j : JSON) : Storage × Option Error :=
  decodeStruct Storage.names Storage.set "confluence.Storage" v j

/-- The names of the fields of `BodyPart`. -/
def BodyPart.names : List String := (({} : BodyPart).fields).map Field.name

/-- A JSON value stored into field `i` of `BodyPart`. -/
def BodyPart.set (v : BodyPart) (i : Nat) (j : JSON) : BodyPart × Option Error :=
  match i with
  | 0 => store (decodePtr {} Expendable.decode v.Expendable j) fun x => { v with Expendable := x }
  | _ => (v, none)

/-- A JSON value stored into a `BodyPart`. -/
def BodyPart.decode (v : BodyPart) (j : JSON) : BodyPart × Option Error :=
  decodeStruct BodyPart.names BodyPart.set "confluence.BodyPart" v j

/-- The names of the fields of `Body`. -/
def Body.names : List String := (({} : Body).fields).map Field.name

/-- A JSON value stored into field `i` of `Body`. -/
def Body.set (v : Body) (i : Nat) (j : JSON) : Body × Option Error :=
  match i with
  | 0 => store (decodePtr {} BodyPart.decode v.Editor j) fun x => { v with Editor := x }
  | 1 => store (decodeString v.Representation j) fun x => { v with Representation := x }
  | 2 => store (decodeString v.Value j) fun x => { v with Value := x }
  | 3 => store (decodePtr {} Storage.decode v.Storage j) fun x => { v with Storage := x }
  | _ => (v, none)

/-- A JSON value stored into a `Body`. -/
def Body.decode (v : Body) (j : JSON) : Body × Option Error :=
  decodeStruct Body.names Body.set "confluence.Body" v j

/-- The names of the fields of `Space`. -/
def Space.names : List String := (({} : Space).fields).map Field.name

/-- A JSON value stored into field `i` of `Space`. -/
def Space.set (v : Space) (i : Nat) (j : JSON) : Space × Option Error :=
  match i with
  | 0 => store (decodeInt v.ID j) fun x => { v with ID := x }
  | 1 => store (decodeString v.Key j) fun x => { v with Key := x }
  | 2 => store (decodeString v.Name j) fun x => { v with Name := x }
  | 3 => store (decodeString v.«Type» j) fun x => { v with «Type» := x }
  | 4 => store (decodePtr {} Links.decode v.Links j) fun x => { v with Links := x }
  | 5 => store (decodePtr {} Expendable.decode v.Expendable j) fun x => { v with Expendable := x }
  | _ => (v, none)

/-- A JSON value stored into a `Space`. -/
def Space.decode (v : Space) (j : JSON) : Space × Option Error :=
  decodeStruct Space.names Space.set "confluence.Space" v j

/-- The names of the fields of `Version`. -/
def Version.names : List String := (({} : Version).fields).map Field.name

/-- A JSON value stored into field `i` of `Version`. -/
def Version.set (v : Version) (i : Nat) (j : JSON) : Version × Option Error :=
  match i with
  | 0 => store (decodePtr {} By.decode v.By j) fun x => { v with By := x }
  | 1 => store (decodeString v.When j) fun x => { v with When := x }
  | 2 => store (decodeString v.Message j) fun x => { v with Message := x }
  | 3 => store (decodeInt v.Number j) fun x => { v with Number := x }
  | 4 => store (decodeBool v.MinorEdit j) fun x => { v with MinorEdit := x }
  | 5 => store (decodeBool v.Hidden j) fun x => { v with Hidden := x }
  | 6 => store (decodePtr {} Links.decode v.Links j) fun x => { v with Links := x }
  | 7 => store (decodePtr {} Expendable.decode v.Expendable j) fun x => { v with Expendable := x }
  | _ => (v, none)

/-- A JSON value stored into a `Version`. -/
def Version.decode (v : Version) (j : JSON) : Version × Option Error :=
  decodeStruct Version.names Version.set "confluence.Version" v j

/-- The names of the fields of `Ancestor`. -/
def Ancestor.names : List String := (({} : Ancestor).fields).map Field.name

/-- A JSON value stored into field `i` of `Ancestor`. -/
def Ancestor.set (v : Ancestor) (i : Nat) (j : JSON) : Ancestor × Option Error :=
  match i with
  | 0 => store (decodeString v.ID j) fun x => { v with ID := x }
  | _ => (v, none)

/-- A JSON value stored into a `Ancestor`. -/
def Ancestor.decode (v : Ancestor) (j : JSON) : Ancestor × Option Error :=
  decodeStruct Ancestor.names Ancestor.set "confluence.Ancestor" v j

/-- The names of the fields of `Page`. -/
def Page.names : List String := (({} : Page).fields).map Field.name

/-- A JSON value stored into field `i` of `Page`. -/
def Page.set (v : Page) (i : Nat) (j : JSON) : Page × Option Error :=
  match i with
  | 0 => store (decodePtr {} Expendable.decode v.Expendable j) fun x => { v with Expendable := x }
  | 1 => store (decodePtr {} Links.decode v.Links j) fun x => { v with Links := x }
  | 2 => store (decodeString v.ID j) fun x => { v with ID := x }
  | 3 => store (decodeString v.Title j) fun x => { v with Title := x }
  | 4 => store (decodeString v.«Type» j) fun x => { v with «Type» := x }
  | 5 => store (decodePtr {} Body.decode v.Body j) fun x => { v with Body := x }
  | 6 => store (decodeString v.Status j) fun x => { v with Status := x }
  | 7 => store (decodePtr {} Space.decode v.Space j) fun x => { v with Space := x }
  | 8 => store (decodePtr {} Version.decode v.Version j) fun x => { v with Version := x }
  | 9 => store (decodeSlice none (decodePtr {} Ancestor.decode) "[]*confluence.Ancestor" v.Ancestors j) fun x => { v with Ancestors := x }
  | _ => (v, none)

/-- A JSON value stored into a `Page`. -/
def Page.decode (v : Page) (j : JSON) : Page × Option Error :=
  decodeStruct Page.names Page.set "confluence.Page" v j

/-- What `json.NewDecoder(resp.Body)` finds in a response body: text that is
not a JSON document (empty, truncated, ill-formed), or a JSON value. -/
inductive ResponseBody where
  | invalid (err : Error)
  | value (j : JSON)

/-- Call `json.NewDecoder(body).Decode(&page)`: the document is scanned first, so
that a body that is not JSON leaves the page untouched; otherwise the value
is stored into the page. -/
def Decode (body : ResponseBody) (page : Page) : Page × Option Error :=
  match body with
  | .invalid err => (page, some err)
  | .value j => page.decode j

/-! ## `net/url`: `ParseRequestURI` and `Parse` -/

/-- The type `url.Userinfo`. -/
structure Userinfo where
  username : GoString := []
  password : GoString := []
  passwordSet : Bool := false
deriving DecidableEq

/-- The type `url.URL`. -/
structure URL where
  Scheme : GoString := []
  Opaque : GoString := []
  User : Option Userinfo := none
  Host : GoString := []
  Path : GoString := []
  RawPath : GoString := []
  OmitHost : Bool := false
  ForceQuery : Bool := false
  RawQuery : GoString := []
  Fragment : GoString := []
  RawFragment : GoString := []
deriving DecidableEq

/-- Function `stringContainsCTLByte`: whether `s` contains an ASCII control character. -/
def stringContainsCTLByte (s : GoString) : Bool :=
  s.any fun b => b.toNat < 0x20 || b.toNat == 0x7f

/-- An ASCII letter. -/
def isLetter (c : UInt8) : Bool :=
  (97 ≤ c.toNat && c.toNat ≤ 122) || (65 ≤ c.toNat && c.toNat ≤ 90)

/-- An ASCII digit. -/
def isDigit (c : UInt8) : Bool := 48 ≤ c.toNat && c.toNat ≤ 57

/-- The loop of `getScheme`, at index `i` of `rawURL` with `rest` still to read. -/
def getSchemeAux (rawURL : GoString) : Nat → GoString → Except Error (GoString × GoString)
  | _, [] => .ok ([], rawURL)
  | i, c :: rest =>
    if isLetter c then getSchemeAux rawURL (i + 1) rest
    else if isDigit c || c == 43 || c == 45 || c == 46 then
      if i = 0 then .ok ([], rawURL) else getSchemeAux rawURL (i + 1) rest
    else if c == 58 then
      if i = 0 then .error (.url "missing protocol scheme")
      else .ok (rawURL.take i, rest)
    else .ok ([], rawURL)

/-- Function `getScheme`: splits `scheme:rest` off `rawURL`; the scheme is empty when
`rawURL` does not start with a scheme followed by a colon. -/
def getScheme (rawURL : GoString) : Except Error (GoString × GoString) :=
  getSchemeAux rawURL 0 rawURL

/-- Function `strings.ToLower` on the characters a scheme can have. -/
def toLower (s : GoString) : GoString :=
  s.map fun c => if 65 ≤ c.toNat ∧ c.toNat ≤ 90 then UInt8.ofNat (c.toNat + 32) else c

/-- Function `strings.Cut(s, "?")`: the text before and after the first `?`. -/
def cutQuery (s : GoString) : GoString × GoString :=
  ((s.span fun c => c != 63).1, ((s.span fun c => c != 63).2).drop 1)

/-- A hexadecimal digit (`ishex`). -/
def ishex (c : UInt8) : Bool :=
  isDigit c || (97 ≤ c.toNat && c.toNat ≤ 102) || (65 ≤ c.toNat && c.toNat ≤ 70)

/-- The value of a hexadecimal digit (`unhex`). -/
def unhex (c : UInt8) : Nat :=
  if isDigit c then c.toNat - 48
  else if 97 ≤ c.toNat ∧ c.toNat ≤ 102 then c.toNat - 97 + 10
  else if 65 ≤ c.toNat ∧ c.toNat ≤ 70 then c.toNat - 65 + 10
  else 0

/-- Function `unescape(s, mode)` for the modes `encodePath` and `encodeFragment`,
which it treats alike: every `%XX` stands for a byte; a `%` that is not
followed by two hexadecimal digits is an error. -/
def unescape : GoString → Except Error GoString
  | [] => .ok []
  | c :: t =>
    if c == 37 then
      match t with
      | h1 :: h2 :: t2 =>
        if ishex h1 && ishex h2 then
          match unescape t2 with
          | .ok r => .ok (UInt8.ofNat (unhex h1 * 16 + unhex h2) :: r)
          | .error e => .error e
        else .error (.url "invalid URL escape")
      | _ => .error (.url "invalid URL escape")
    else
      match unescape t with
      | .ok r => .ok (c :: r)
      | .error e => .error e

/-- Function `shouldEscape(c, encodePath)`: whether a byte of a path is written as `%XX`. -/
def shouldEscape (c : UInt8) : Bool :=
  if isLetter c || isDigit c then false
  else if c == 45 || c == 95 || c == 46 || c == 126 then false
  else if c == 36 || c == 38 || c == 43 || c == 44 || c == 47 || c == 58 || c == 59
      || c == 61 || c == 64 then false
  else true

/-- The table `upperhex`. -/
def upperhex (n : Nat) : UInt8 := (lit "0123456789ABCDEF").getD n 0

/-- Function `escape(s, encodePath)`. -/
def escape (s : GoString) : GoString :=
  s.flatMap fun c =>
    if shouldEscape c then [37, upperhex (c.toNat / 16), upperhex (c.toNat % 16)] else [c]

/-- Method `(*URL).setPath`: `Path` is the unescaped path, and `RawPath` is kept only
when it is not the default escaping of `Path`. -/
def setPath (u : URL) (p : GoString) : Except Error URL :=
  match unescape p with
  | .error e => .error e
  | .ok path =>
    .ok { u with Path := path, RawPath := if p = escape path then [] else p }

/-- Function `url.ParseRequestURI(rawURL)`, which is `parse(rawURL, true)`: the string
is taken to be either an absolute URI or an absolute path.  `parseAuthority`
is the function of that name of `net/url`. -/
def ParseRequestURI (parseAuthority : GoString → Except Error (Option Userinfo × GoString))
    (rawURL : GoString) : Except Error URL :=
  if stringContainsCTLByte rawURL then
    .error (.url "net/url: invalid control character in URL")
  else if rawURL = [] then .error (.url "empty url")
  else if rawURL = lit "*" then .ok { Path := lit "*" }
  else
    match getScheme rawURL with
    | .error e => .error e
    | .ok (scheme, rest0) =>
      let url : URL := { Scheme := toLower scheme }
      let forceQuery : Bool := rest0.getLast? = some 63 && rest0.count 63 = 1
      let rest := if forceQuery then rest0.dropLast else (cutQuery rest0).1
      let url : URL :=
        if forceQuery then { url with ForceQuery := true }
        else { url with RawQuery := (cutQuery rest0).2 }
      if rest.head? ≠ some 47 then
        if url.Scheme ≠ [] then .ok { url with Opaque := rest }
        else .error (.url "invalid URI for request")
      else if url.Scheme ≠ [] ∧ (lit "//").isPrefixOf rest then
        let authRest := (rest.drop 2).span fun c => c != 47
        match parseAuthority authRest.1 with
        | .error e => .error e
        | .ok (user, host) => setPath { url with User := user, Host := host } authRest.2
      else if url.Scheme ≠ [] then setPath { url with OmitHost := true } rest
      else setPath url rest

/-- Function `shouldEscape(c, encodeFragment)`: whether a byte of a fragment is
written as `%XX`. -/
def shouldEscapeFragment (c : UInt8) : Bool :=
  if isLetter c || isDigit c then false
  else if c == 45 || c == 95 || c == 46 || c == 126 then false
  else if c == 36 || c == 38 || c == 43 || c == 44 || c == 47 || c == 58 || c == 59
      || c == 61 || c == 63 || c == 64 then false
  else if c == 33 || c == 40 || c == 41 || c == 42 then false
  else true

/-- Function `escape(s, encodeFragment)`. -/
def escapeFragment (s : GoString) : GoString :=
  s.flatMap fun c =>
    if shouldEscapeFragment c then [37, upperhex (c.toNat / 16), upperhex (c.toNat % 16)]
    else [c]

/-- Method `(*URL).setFragment`: `Fragment` is the unescaped fragment, and
`RawFragment` is kept only when it is not the default escaping of `Fragment`. -/
def setFragment (u : URL) (f : GoString) : Except Error URL :=
  match unescape f with
  | .error e => .error e
  | .ok frag =>
    .ok { u with Fragment := frag, RawFragment := if f = escapeFragment frag then [] else f }

/-- Function `strings.Cut(s, "#")`: the text before and after the first `#`. -/
def cutFragment (s : GoString) : GoString × GoString :=
  ((s.span fun c => c != 35).1, ((s.span fun c => c != 35).2).drop 1)

/-- Function `strings.Cut(s, "/")`, first part: the first segment of a relative path. -/
def firstSegment (s : GoString) : GoString := (s.span fun c => c != 47).1

/-- Function `parse(rawURL, false)` of `net/url`: the string, from which the
fragment has been cut, is taken to be a URL reference of any form.
`parseAuthority` is the function of that name of `net/url`. -/
def parseReference (parseAuthority : GoString → Except Error (Option Userinfo × GoString))
    (rawURL : GoString) : Except Error URL :=
  if stringContainsCTLByte rawURL then
    .error (.url "net/url: invalid control character in URL")
  else if rawURL = lit "*" then .ok { Path := lit "*" }
  else
    match getScheme rawURL with
    | .error e => .error e
    | .ok (scheme, rest0) =>
      let url : URL := { Scheme := toLower scheme }
      let forceQuery : Bool := rest0.getLast? = some 63 && rest0.count 63 = 1
      let rest := if forceQuery then rest0.dropLast else (cutQuery rest0).1
      let url : URL :=
        if forceQuery then { url with ForceQuery := true }
        else { url with RawQuery := (cutQuery rest0).2 }
      if rest.head? ≠ some 47 ∧ url.Scheme ≠ [] then .ok { url with Opaque := rest }
      else if rest.head? ≠ some 47 ∧ (firstSegment rest).contains 58 then
        .error (.url "first path segment in URL cannot contain colon")
      else if (url.Scheme ≠ [] ∨ ¬ (lit "///").isPrefixOf rest) ∧ (lit "//").isPrefixOf rest then
        let authRest := (rest.drop 2).span fun c => c != 47
        match parseAuthority authRest.1 with
        | .error e => .error e
        | .ok (user, host) => setPath { url with User := user, Host := host } authRest.2
      else if url.Scheme ≠ [] ∧ rest.head? = some 47 then
        setPath { url with OmitHost := true } rest
      else setPath url rest

/-- Function `url.Parse(rawURL)`: the fragment is cut off at the first `#`, the
rest is parsed as a URL reference, and the fragment, if any, is set. -/
def Parse (parseAuthority : GoString → Except Error (Option Userinfo × GoString))
    (rawURL : GoString) : Except Error URL :=
  match parseReference parseAuthority (cutFragment rawURL).1 with
  | .error e => .error e
  | .ok url =>
    if (cutFragment rawURL).2 = [] then .ok url
    else setFragment url (cutFragment rawURL).2

/-! ## The client (`confluence.go`, lines 14 to 22 and 144 to 285) -/

/-- The type `http.Client`, of which the client sets the timeout (in
nanoseconds). -/
structure HttpClient where
  Timeout : Nat := 0
deriving DecidableEq

/-- The struct `Client`.  `BaseURL` is the URL the pointer points to: `NewAPI`
never leaves it nil. -/
structure Client where
  BaseURL : URL := {}
  UserAgent : GoString := []
  Username : GoString := []
  Password : GoString := []
  HttpClient : HttpClient := {}
deriving DecidableEq

/-- An `http.Request` as the client builds it: the method, the parsed URL, the
host, the header fields in the order they were set, and the body, which is
the JSON value written to the buffer. -/
structure Request where
  Method : GoString
  URL : Confluence.URL
  Host : GoString := []
  Header : List (String × GoString) := []
  Body : Option JSON := none

/-- An `http.Response`, as far as the client can read it. -/
structure Response where
  StatusCode : Nat
  Body : ResponseBody

/-- Method `Header.Set`: the value replaces the values of the field. -/
def Request.setHeader (r : Request) (key : String) (value : GoString) : Request :=
  { r with Header := (r.Header.filter fun h => h.1 != key) ++ [(key, value)] }

/-- Method `Header.Add`: the value is added to the values of the field. -/
def Request.addHeader (r : Request) (key : String) (value : GoString) : Request :=
  { r with Header := r.Header ++ [(key, value)] }

/-- A token character of HTTP (`httpguts.IsTokenRune`). -/
def isTokenRune (c : UInt8) : Bool :=
  isLetter c || isDigit c || c == 33 || c == 35 || c == 36 || c == 37 || c == 38 || c == 39
    || c == 42 || c == 43 || c == 45 || c == 46 || c == 94 || c == 95 || c == 96 || c == 124
    || c == 126

/-- Function `validMethod` of `net/http`: a method is a non-empty token. -/
def validMethod (method : GoString) : Bool :=
  method.length > 0 && method.all isTokenRune

/-- Function `strings.LastIndex(s, c)` for a single byte: `-1` when `c` does not occur. -/
def lastIndex (s : GoString) (c : UInt8) : Int :=
  match s.reverse.findIdx? fun b => b == c with
  | some i => (s.length : Int) - 1 - i
  | none => -1

/-- Function `removeEmptyPort` of `net/http`: a host that ends in a colon
with no port after it loses the colon. -/
def removeEmptyPort (host : GoString) : GoString :=
  if lastIndex host 58 > lastIndex host 93 then
    (if host.getLast? = some 58 then host.dropLast else host)
  else host

/-- Function `http.NewRequest(method, url, body)`: an empty method stands for
GET, the method has to be a token, and the URL string is parsed with
`url.Parse`; the request holds the parsed URL, not the string. -/
def NewRequest (parseAuthority : GoString → Except Error (Option Userinfo × GoString))
    (method url : GoString) (body : Option JSON) : Except Error Request :=
  let method := if method = [] then lit "GET" else method
  if !validMethod method then .error (.request "net/http: invalid method")
  else
    match Parse parseAuthority url with
    | .error err => .error err
    | .ok u =>
      let u := { u with Host := removeEmptyPort u.Host }
      .ok { Method := method, URL := u, Host := u.Host, Body := body }

/-- What the client calls and does not define or decide: the standard library
functions it passes values through, and the network. -/
structure Env where
  /-- The function `parseAuthority` of `net/url`. -/
  parseAuthority : GoString → Except Error (Option Userinfo × GoString)
  /-- The method `(*url.URL).String`. -/
  urlString : URL → GoString
  /-- The method `(*http.Client).Do`: a response, or the error of a failed exchange. -/
  Do : Request → Except Error Response

/-- Function `NewAPI`, lines 219 to 241: the pointer to the client (nil is `none`) and
the error (nil is `none`). -/
def NewAPI (env : Env) (location username password : GoString) :
    Option Client × Option Error :=
  if location.length = 0 ∨ username.length = 0 ∨ password.length = 0 then
    (none, some (.config "url, username or password empty"))
  else
    match ParseRequestURI env.parseAuthority location with
    | .error err => (none, some err)
    | .ok u =>
      (some { HttpClient := { Timeout := 1000000000 * 5 }, BaseURL := u, Password := password,
              Username := username, UserAgent := lit "confluence server API Client" }, none)

/-- Function `basicAuth`, lines 243 to 246. -/
def Client.basicAuth (_c : Client) (username password : GoString) : GoString :=
  let auth := username ++ lit ":" ++ password
  EncodeToString auth

/-- Function `newRequest`, lines 248 to 269; `body` is `none` for a nil body.  Encoding
a `Page` cannot fail, so that the first error return is never taken. -/
def Client.newRequest (c : Client) (env : Env) (method path : GoString) (body : Option Page) :
    Except Error Request :=
  let buf : Option JSON := body.map Page.toJSON
  match NewRequest env.parseAuthority method (env.urlString c.BaseURL ++ path) buf with
  | .error err => .error err
  | .ok req =>
    let req := if body.isSome then req.setHeader "Content-Type" (lit "application/json") else req
    let req := req.setHeader "Accept" (lit "application/json")
    let req := req.setHeader "User-Agent" c.UserAgent
    .ok req

/-- The request `do` hands to the HTTP client: line 272 adds the
`Authorization` header. -/
def Client.authorize (c : Client) (req : Request) : Request :=
  req.addHeader "Authorization" (lit "Basic " ++ c.basicAuth c.Username c.Password)

/-- Function `do`, lines 271 to 285: the response (nil is `none`), the value `v` points
to after the call, and the error. -/
def Client.do (c : Client) (env : Env) (req : Request) (v : Page) :
    Option Response × Page × Option Error :=
  match env.Do (c.authorize req) with
  | .error err => (none, v, some err)
  | .ok resp =>
    let r := Decode resp.Body v
    (some resp, r.1, r.2)

/-- The page `CreatePage` builds in lines 145 to 167. -/
def CreatePage.page (space parentId title body : GoString) : Page :=
  let ancestor : Ancestor := { ID := parentId }
  let page : Page := {}
  let page := { page with Ancestors := page.Ancestors ++ [some ancestor] }
  let page := { page with Title := title }
  let page := { page with «Type» := lit "page" }
  let spaceObject : Space := { Key := space }
  let page := { page with Space := some spaceObject }
  let storageObject : Storage := { Value := body, Representation := lit "storage" }
  let bodyObject : Body := { Storage := some storageObject }
  let page := { page with Body := some bodyObject }
  let versionObject : Version := { Number := 1 }
  { page with Version := some versionObject }

/-- The request `CreatePage` builds in line 169. -/
def CreatePage.request (c : Client) (env : Env) (space parentId title body : GoString) :
    Except Error Request :=
  c.newRequest env (lit "POST") (lit "/content/") (some (CreatePage.page space parentId title body))

/-- Function `CreatePage`, lines 144 to 176. -/
def Client.CreatePage (c : Client) (env : Env) (space parentId title body : GoString) :
    Page × Option Error :=
  let page := CreatePage.page space parentId title body
  match CreatePage.request c env space parentId title body with
  | .error err => (page, some err)
  | .ok req =>
    let r := c.do env req page
    (r.2.1, r.2.2)

/-- The page `UpdatePage` builds in lines 179 to 198. -/
def UpdatePage.page (space id title body : GoString) (version : Int) : Page :=
  let page : Page := {}
  let page := { page with ID := id }
  let page := { page with Title := title }
  let page := { page with «Type» := lit "page" }
  let spaceObject : Space := { Key := space }
  let page := { page with Space := some spaceObject }
  let storageObject : Storage := { Value := body, Representation := lit "storage" }
  let bodyObject : Body := { Storage := some storageObject }
  let page := { page with Body := some bodyObject }
  let versionObject : Version := { Number := version }
  { page with Version := some versionObject }

/-- The request `UpdatePage` builds in line 200. -/
def UpdatePage.request (c : Client) (env : Env) (space id title body : GoString)
    (version : Int) : Except Error Request :=
  c.newRequest env (lit "PUT") (lit "/content/" ++ id)
    (some (UpdatePage.page space id title body version))

/-- Function `UpdatePage`, lines 178 to 207. -/
def Client.UpdatePage (c : Client) (env : Env) (space id title body : GoString)
    (version : Int) : Page × Option Error :=
  let page := UpdatePage.page space id title body version
  match UpdatePage.request c env space id title body version with
  | .error err => (page, some err)
  | .ok req =>
    let r := c.do env req page
    (r.2.1, r.2.2)

/-- The request `GetPage` builds in line 211. -/
def GetPage.request (c : Client) (env : Env) (id : GoString) : Except Error Request :=
  c.newRequest env (lit "GET") (lit "/content/" ++ id ++ lit "?expand=body.storage,version") none

/-- Function `GetPage`, lines 209 to 217. -/
def Client.GetPage (c : Client) (env : Env) (id : GoString) : Page × Option Error :=
  let page : Page := {}
  match GetPage.request c env id with
  | .error err => (page, some err)
  | .ok req =>
    let r := c.do env req page
    (r.2.1, r.2.2)

/-- Whether `rawURL` starts with a scheme followed by a colon, which is what
makes it an absolute URI for `net/url`. -/
def hasScheme (rawURL : GoString) : Bool :=
  match getScheme rawURL with
  | .ok (scheme, _) => scheme ≠ []
  | .error _ => false

/-- An environment for examples: every exchange has the outcome `reply`, an
authority is taken to be a host, and a URL is printed as scheme, host and
path. -/
def Env.sample (reply : Except Error Response) : Env :=
  { parseAuthority := fun a => .ok (none, a),
    urlString := fun u =>
      if u.Scheme = [] then u.Path else u.Scheme ++ lit "://" ++ u.Host ++ u.Path,
    Do := fun _ => reply }

/-- The outcome of an exchange that fails: the connection is refused. -/
def refused : Except Error Response := .error (.transport "connection refused")

/-- The content of a JSON string; `none` for any other value. -/
def JSON.asString : JSON → Option GoString
  | .str s => some s
  | _ => none

/-- The value of a JSON integer; `none` for any other value. -/
def JSON.asInt : JSON → Option Int
  | .int n => some n
  | _ => none

/-- Method `Header.Values`: the values of a header field of a request, in order. -/
def Request.header (r : Request) (key : String) : List GoString :=
  (r.Header.filter fun h => h.1 == key).map Prod.snd

/-- A request for examples. -/
def Request.sample : Request :=
  { Method := lit "GET",
    URL := { Scheme := lit "https", Host := lit "hostname",
             Path := lit "/confluence/rest/api/content/64819209" },
    Host := lit "hostname" }

/-- A response for examples, with the given status code: its body is the JSON
encoding of a page. -/
def Response.sample (status : Nat) : Response :=
  { StatusCode := status,
    Body := .value (CreatePage.page (lit "TST") (lit "456") (lit "new page")
      (lit "<p>This is a new page</p>")).toJSON }

/-- Whether a member name denotes the field with JSON name `name`: it is
that name, or equal to it under case folding. -/
def matchesName (key name : String) : Bool :=
  name == key || foldName name == foldName key

/-- The frame of a decoding: every field of the page that no member in
`members` denotes has in `after` the value it has in `before`. -/
def keepsUnnamed (members : List (String × JSON)) (before after : Page) : Prop :=
  ((∀ m ∈ members, matchesName m.1 "_expandable" = false) → after.Expendable = before.Expendable)
  ∧ ((∀ m ∈ members, matchesName m.1 "_links" = false) → after.Links = before.Links)
  ∧ ((∀ m ∈ members, matchesName m.1 "id" = false) → after.ID = before.ID)
  ∧ ((∀ m ∈ members, matchesName m.1 "title" = false) → after.Title = before.Title)
  ∧ ((∀ m ∈ members, matchesName m.1 "type" = false) → after.«Type» = before.«Type»)
  ∧ ((∀ m ∈ members, matchesName m.1 "body" = false) → after.Body = before.Body)
  ∧ ((∀ m ∈ members, matchesName m.1 "status" = false) → after.Status = before.Status)
  ∧ ((∀ m ∈ members, matchesName m.1 "space" = false) → after.Space = before.Space)
  ∧ ((∀ m ∈ members, matchesName m.1 "version" = false) → after.Version = before.Version)
  ∧ ((∀ m ∈ members, matchesName m.1 "ancestors" = false) → after.Ancestors = before.Ancestors)

/-- A reply for examples: status 200 and a body whose only member is named
`TITLE`, in upper case. -/
def Response.upperCase : Response :=
  { StatusCode := 200, Body := .value (.obj [("TITLE", .str (lit "changed"))]) }

/-- A reply for examples: status 200 and a body whose only member is the id
the server gave the page. -/
def Response.created : Response :=
  { StatusCode := 200, Body := .value (.obj [("id", .str (lit "64819209"))]) }

/-- Whether an integer is a value of the Go type `int` (64 bits). -/
def intFits (n : Int) : Bool :=
  decide (-9223372036854775808 ≤ n ∧ n ≤ 9223372036854775807)

/-- Whether every `int` inside a `ProfilePicture` is a value of the Go type `int`. -/
def ProfilePicture.fits (v : ProfilePicture) : Bool :=
  intFits v.Width && intFits v.Height

/-- Whether every `int` inside a `By` is a value of the Go type `int`. -/
def By.fits (v : By) : Bool :=
  v.ProfilePicture.all ProfilePicture.fits

/-- Whether every `int` inside a `History` is a value of the Go type `int`. -/
def History.fits (v : History) : Bool :=
  v.CreatedBy.all By.fits

/-- Whether every `int` inside a `Space` is a value of the Go type `int`. -/
def Space.fits (v : Space) : Bool :=
  intFits v.ID

/-- Whether every `int` inside a `Version` is a value of the Go type `int`. -/
def Version.fits (v : Version) : Bool :=
  v.By.all By.fits && intFits v.Number

/-- Whether every `int` inside a `Page` is a value of the Go type `int`. -/
def Page.fits (v : Page) : Bool :=
  v.Space.all Space.fits && v.Version.all Version.fits

/-- A client for examples: what `NewAPI` returns for the location
`https://hostname/confluence/rest/api`, the user `user` and the password
`pass` in the environment `Env.sample`. -/
def Client.sample : Client :=
  { BaseURL := { Scheme := lit "https", Host := lit "hostname",
                 Path := lit "/confluence/rest/api" },
    UserAgent := lit "confluence server API Client", Username := lit "user",
    Password := lit "pass", HttpClient := { Timeout := 5000000000 } }

/-! ## Strings that are valid UTF-8 are encoded unchanged -/

theorem ValidString_cons (si : UInt8) (t : GoString) :
    ValidString (si :: t) =
      (if si.toNat < 0x80 then ValidString t
      else
        if first si = 0xF1 then false
        else
          match t with
          | [] => false
          | c1 :: t1 =>
            if c1.toNat < (acceptRanges (first si / 16)).1
                || (acceptRanges (first si / 16)).2 < c1.toNat then false
            else if first si % 8 = 2 then ValidString t1
            else
              match t1 with
              | [] => false
              | c2 :: t2 =>
                if notCont c2 then false
                else if first si % 8 = 3 then ValidString t2
                else
                  match t2 with
                  | [] => false
                  | c3 :: t3 => if notCont c3 then false else ValidString t3) := by
  match t with
  | [] => rfl
  | [_] => rfl
  | [_, _] => rfl
  | _ :: _ :: _ :: _ => rfl

theorem first_cases (b : UInt8) (h : ¬ b.toNat < 0x80) :
    first b = 0xF1 ∨ first b = 0x02 ∨ first b = 0x13 ∨ first b = 0x03 ∨ first b = 0x23
      ∨ first b = 0x34 ∨ first b = 0x04 ∨ first b = 0x44 := by
  unfold first
  dsimp only
  split_ifs <;> omega

theorem decodeRune_of_valid (b : UInt8) (t : GoString) (h : ¬ b.toNat < 0x80)
    (hv : ValidString (b :: t) = true) :
    2 ≤ (DecodeRuneInString (b :: t)).2 ∧ (DecodeRuneInString (b :: t)).2 ≤ (b :: t).length ∧
      ValidString ((b :: t).drop (DecodeRuneInString (b :: t)).2) = true := by
  rw [ValidString_cons] at hv
  unfold DecodeRuneInString
  simp only [h, if_false] at hv
  rcases first_cases b h with hx | hx | hx | hx | hx | hx | hx | hx <;>
    simp only [hx, acceptRanges] at hv ⊢ <;>
    (rcases t with _ | ⟨c1, _ | ⟨c2, _ | ⟨c3, t3⟩⟩⟩) <;>
    simp [notCont] at hv ⊢
  all_goals (split_ifs <;> first | omega | simp [hv])

theorem appendStringAux_valid :
    ∀ (n : Nat) (s : GoString), s.length ≤ n → ValidString s = true →
      appendStringAux n s = s := by
  intro n
  induction n with
  | zero =>
    intro s hl _
    have : s = [] := List.length_eq_zero.mp (Nat.le_zero.mp hl)
    subst this
    rfl
  | succ n ih =>
    intro s hl hv
    cases s with
    | nil => rfl
    | cons b t =>
      simp only [appendStringAux]
      by_cases hb : b.toNat < 0x80
      · rw [if_pos hb]
        rw [ValidString_cons, if_pos hb] at hv
        rw [ih t (by simpa using hl) hv]
      · rw [if_neg hb]
        obtain ⟨h2, hle, hrest⟩ := decodeRune_of_valid b t hb hv
        rw [if_neg (by omega)]
        rw [ih _ (by simp only [List.length_drop]; simp only [List.length_cons] at hl ⊢; omega)
          hrest]
        exact List.take_append_drop _ _

theorem appendString_valid (s : GoString) (h : ValidString s = true) : appendString s = s :=
  appendStringAux_valid s.length s (Nat.le_refl _) h

/-! ## Construction of the client -/

theorem getSchemeAux_no_scheme (raw : GoString) :
    ∀ (rest : GoString) (i : Nat) (p : GoString),
      getSchemeAux raw i rest = .ok ([], p) → p = raw ∨ raw = [] := by
  intro rest
  induction rest with
  | nil => intro i p h; simp [getSchemeAux] at h; exact Or.inl h.symm
  | cons c rest ih =>
    intro i p h
    unfold getSchemeAux at h
    split at h
    · exact ih _ _ h
    · split at h
      · split at h
        · simp at h; exact Or.inl h.symm
        · exact ih _ _ h
      · split at h
        · split at h
          · simp at h
          · simp at h
            right
            cases raw with
            | nil => rfl
            | cons a t =>
              cases i with
              | zero => contradiction
              | succ n => simp at h
        · simp at h; exact Or.inl h.symm

theorem head_span_ne (q : UInt8 → Bool) (a : UInt8) :
    ∀ l : GoString, l.head? ≠ some a → (l.span q).1.head? ≠ some a := by
  intro l h
  cases l with
  | nil => simp [List.span, List.span.loop]
  | cons b t =>
    rw [List.span_eq_take_drop]
    simp only [List.takeWhile_cons]
    split
    · simpa using h
    · simp

theorem head_dropLast_ne (a : UInt8) :
    ∀ l : GoString, l.head? ≠ some a → l.dropLast.head? ≠ some a := by
  intro l h
  match l with
  | [] => simp
  | [b] => simp
  | b :: c :: t => simpa [List.dropLast] using h

/-- C1. `NewAPI` fails whenever one of its three arguments is the empty
string, whatever the other two are, and then returns a nil client together
with a non-nil error. -/
theorem NewAPI_empty_argument (env : Env) (location username password : GoString)
    (h : location = [] ∨ username = [] ∨ password = []) :
    NewAPI env location username password
      = (none, some (.config "url, username or password empty")) := by
  unfold NewAPI
  rw [if_pos]
  rcases h with h | h | h <;> simp [h]

theorem NewAPI_empty_argument_witness :
    NewAPI (Env.sample refused) (lit "https://hostname/confluence/rest/api") [] (lit "pass")
      = (none, some (.config "url, username or password empty")) :=
  NewAPI_empty_argument (Env.sample refused) (lit "https://hostname/confluence/rest/api") []
    (lit "pass") (Or.inr (Or.inl rfl))

/-- C2, as stated, fails: the location `/rest/api`, an absolute path with no
scheme, is accepted, and `NewAPI` returns a client and a nil error; so is the
location `*`. -/
theorem NewAPI_accepts_absolute_path :
    NewAPI (Env.sample refused) (lit "/rest/api") (lit "user") (lit "pass")
      = (some { BaseURL := { Path := lit "/rest/api" }, Username := lit "user",
                Password := lit "pass", UserAgent := lit "confluence server API Client",
                HttpClient := { Timeout := 5000000000 } }, none)
      ∧ NewAPI (Env.sample refused) (lit "*") (lit "user") (lit "pass")
        = (some { BaseURL := { Path := lit "*" }, Username := lit "user",
                  Password := lit "pass", UserAgent := lit "confluence server API Client",
                  HttpClient := { Timeout := 5000000000 } }, none) :=
  ⟨rfl, rfl⟩

/-- C2, amended. `NewAPI` fails, returning a nil client and a non-nil error,
for every location that is neither an absolute URI (it has no scheme), nor an
absolute path (it does not start with a slash), nor the string `*`. -/
theorem NewAPI_rejects_relative (env : Env) (location username password : GoString)
    (hscheme : hasScheme location = false) (hslash : location.head? ≠ some 47)
    (hstar : location ≠ lit "*") :
    ∃ err, NewAPI env location username password = (none, some err) := by
  unfold NewAPI
  split
  · exact ⟨_, rfl⟩
  · rename_i hne
    have hloc : location ≠ [] := by
      intro h; apply hne; left; simp [h]
    have hparse : ∃ err, ParseRequestURI env.parseAuthority location = .error err := by
      unfold ParseRequestURI
      split
      · exact ⟨_, rfl⟩
      · cases hg : getScheme location with
        | error e => exact ⟨e, rfl⟩
        | ok sp =>
          obtain ⟨scheme, rest0⟩ := sp
          have hs : scheme = [] := by
            simpa [hasScheme, hg] using hscheme
          subst hs
          have hr : rest0 = location := by
            rcases getSchemeAux_no_scheme location location 0 rest0 hg with h | h
            · exact h
            · exact absurd h hloc
          subst hr
          simp only [toLower, List.map_nil]
          have hhead : (if (rest0.getLast? = some 63 && rest0.count 63 = 1) = true
              then rest0.dropLast else (cutQuery rest0).1).head? ≠ some 47 := by
            split
            · exact head_dropLast_ne 47 rest0 hslash
            · exact head_span_ne _ 47 rest0 hslash
          simp only [hhead, ne_eq, not_false_eq_true, if_true]
          split <;> simp
    obtain ⟨err, herr⟩ := hparse
    exact ⟨err, by rw [herr]⟩

theorem NewAPI_rejects_relative_witness :
    ∃ err, NewAPI (Env.sample refused) (lit "rest/api") (lit "user") (lit "pass")
      = (none, some err) :=
  NewAPI_rejects_relative (Env.sample refused) (lit "rest/api") (lit "user") (lit "pass")
    (by decide) (by decide) (by decide)

/-! ## The payload of `CreatePage` -/

theorem NewRequest_ok (pa : GoString → Except Error (Option Userinfo × GoString))
    (method url : GoString) (body : Option JSON) (req : Request)
    (h : NewRequest pa method url body = .ok req) :
    ∃ u, Parse pa url = .ok u
      ∧ req = { Method := if method = [] then lit "GET" else method,
                URL := { u with Host := removeEmptyPort u.Host },
                Host := removeEmptyPort u.Host, Body := body } := by
  unfold NewRequest at h
  simp only [] at h
  cases hv : validMethod (if method = [] then lit "GET" else method) with
  | false => simp [hv] at h
  | true =>
    cases hp : Parse pa url with
    | error e => simp [hv, hp] at h
    | ok u =>
      simp only [hv, hp, Bool.not_true, Bool.false_eq_true, if_false, Except.ok.injEq] at h
      exact ⟨u, rfl, h.symm⟩

theorem NewRequest_body (pa : GoString → Except Error (Option Userinfo × GoString))
    (method url : GoString) (body : Option JSON) (req : Request)
    (h : NewRequest pa method url body = .ok req) : req.Body = body := by
  obtain ⟨u, _, hreq⟩ := NewRequest_ok pa method url body req h
  rw [hreq]

theorem newRequest_body (c : Client) (env : Env) (method path : GoString) (body : Option Page)
    (req : Request) (h : c.newRequest env method path body = .ok req) :
    req.Body = body.map Page.toJSON := by
  unfold Client.newRequest at h
  simp only [] at h
  split at h
  · simp at h
  · rename_i req0 h0
    simp only [Except.ok.injEq] at h
    subst h
    have hb := NewRequest_body _ _ _ _ _ h0
    cases body <;> simpa [Request.setHeader] using hb

theorem CreatePage_payload_raw (space parentId title body : GoString) :
    Decode (.value (CreatePage.page space parentId title body).toJSON) {}
      = ({ «Type» := appendString (lit "page"), Title := appendString title,
           Ancestors := [some { ID := appendString parentId }],
           Space := some { Key := appendString space },
           Body := some { Storage := some { Value := appendString body,
                                            Representation := appendString (lit "storage") } },
           Version := some { Number := 1 } }, none) := by
  rcases space with _ | ⟨s0, st⟩ <;> rcases parentId with _ | ⟨p0, pt⟩ <;>
    rcases title with _ | ⟨t0, tt⟩ <;> rcases body with _ | ⟨b0, bt⟩ <;> rfl

/-- C3, as stated, fails: a title that is not valid UTF-8 (the single byte
`0xff`) does not come back from its JSON encoding; the decoded title is the
three bytes of U+FFFD. -/
theorem CreatePage_payload_invalid_utf8 :
    (Decode (.value (CreatePage.page (lit "TST") (lit "456") [0xff] (lit "<p>x</p>")).toJSON)
        {}).1.Title = [0xEF, 0xBF, 0xBD]
      ∧ (Decode (.value (CreatePage.page (lit "TST") (lit "456") [0xff] (lit "<p>x</p>")).toJSON)
        {}).1.Title ≠ [0xff] := by
  decide

/-- C3, amended. For every space, parentId, title and body that are valid
UTF-8 (the empty string included), the request `CreatePage` builds has the
JSON encoding of its page as body, and decoding that encoding into a fresh
`Page` gives no error and type `page`, the title, one ancestor with id
parentId, space.key = space, body.storage.value = body,
body.storage.representation = `storage`, version.number = 1, and the zero
value in every other field. -/
theorem CreatePage_payload_roundtrip (c : Client) (env : Env)
    (space parentId title body : GoString)
    (hs : ValidString space = true) (hp : ValidString parentId = true)
    (ht : ValidString title = true) (hb : ValidString body = true) :
    (∀ req, CreatePage.request c env space parentId title body = .ok req →
        req.Body = some (CreatePage.page space parentId title body).toJSON)
      ∧ Decode (.value (CreatePage.page space parentId title body).toJSON) {}
        = ({ «Type» := lit "page", Title := title, Ancestors := [some { ID := parentId }],
             Space := some { Key := space },
             Body := some { Storage := some { Value := body,
                                              Representation := lit "storage" } },
             Version := some { Number := 1 } }, none) := by
  constructor
  · intro req h
    exact newRequest_body c env _ _ _ req h
  · rw [CreatePage_payload_raw, appendString_valid space hs, appendString_valid parentId hp,
      appendString_valid title ht, appendString_valid body hb]
    rfl

theorem CreatePage_payload_roundtrip_witness :
    (∀ req, CreatePage.request {} (Env.sample refused) (lit "TST") (lit "456") (lit "new page")
          (lit "<p>This is a new page</p>") = .ok req →
        req.Body = some (CreatePage.page (lit "TST") (lit "456") (lit "new page")
          (lit "<p>This is a new page</p>")).toJSON)
      ∧ Decode (.value (CreatePage.page (lit "TST") (lit "456") (lit "new page")
          (lit "<p>This is a new page</p>")).toJSON) {}
        = ({ «Type» := lit "page", Title := lit "new page",
             Ancestors := [some { ID := lit "456" }],
             Space := some { Key := lit "TST" },
             Body := some { Storage := some { Value := lit "<p>This is a new page</p>",
                                              Representation := lit "storage" } },
             Version := some { Number := 1 } }, none) :=
  CreatePage_payload_roundtrip {} (Env.sample refused) (lit "TST") (lit "456") (lit "new page")
    (lit "<p>This is a new page</p>") (by decide) (by decide) (by decide) (by decide)

/-! ## The payload of `UpdatePage` -/

theorem Version_toJSON_number (version : Int) (h : version ≠ 0) :
    Version.toJSON { Number := version } = .obj [("number", .int version)] := by
  simp [Version.toJSON, Version.fields, structEncode, isEmptyValue, FieldVal.toJSON, h]

theorem UpdatePage_payload_version (space id title body : GoString) (version : Int) :
    (UpdatePage.page space id title body version).toJSON.get "version"
      = some (Version.toJSON { Number := version }) := by
  rcases id with _ | ⟨i0, it⟩ <;> rcases title with _ | ⟨t0, tt⟩ <;> rfl

theorem UpdatePage_payload_id (space title body : GoString) (version : Int) (i0 : UInt8)
    (it : GoString) :
    (UpdatePage.page space (i0 :: it) title body version).toJSON.get "id"
      = some (.str (appendString (i0 :: it))) := by
  rfl

/-- C4, as stated, fails: with version 0 the payload has a version object
without a number member, with the empty id it has no id member, and an id
that is not valid UTF-8 (the byte `0xff`) is sent as U+FFFD. -/
theorem UpdatePage_payload_omits_zero :
    (((UpdatePage.page (lit "TST") (lit "3604482") (lit "new page") (lit "<p>x</p>") 0).toJSON.get
        "version").getD .null).hasKey "number" = false
      ∧ (UpdatePage.page (lit "TST") [] (lit "new page") (lit "<p>x</p>") 2).toJSON.hasKey "id"
        = false
      ∧ ((UpdatePage.page (lit "TST") [0xff] (lit "new page") (lit "<p>x</p>") 2).toJSON.get
        "id").bind JSON.asString = some [0xEF, 0xBF, 0xBD] := by
  decide

/-- C4, amended. For every space, title and body, every id that is not empty
(and is valid UTF-8) and every integer version other than 0, negative ones
included, the request `UpdatePage` builds has the JSON encoding of its page as
body, and in it the member id is the string id and version.number is exactly
the version given by the caller. -/
theorem UpdatePage_sends_id_and_version (c : Client) (env : Env) (space id title body : GoString)
    (version : Int) (hid : id ≠ []) (hutf : ValidString id = true) (hver : version ≠ 0) :
    (∀ req, UpdatePage.request c env space id title body version = .ok req →
        req.Body = some (UpdatePage.page space id title body version).toJSON)
      ∧ ((UpdatePage.page space id title body version).toJSON.get "id").bind JSON.asString
        = some id
      ∧ (((UpdatePage.page space id title body version).toJSON.get "version").bind
          fun v => (v.get "number").bind JSON.asInt) = some version := by
  refine ⟨fun req h => newRequest_body c env _ _ _ req h, ?_, ?_⟩
  · cases id with
    | nil => exact absurd rfl hid
    | cons i0 it =>
      rw [UpdatePage_payload_id, appendString_valid (i0 :: it) hutf]
      rfl
  · rw [UpdatePage_payload_version, Version_toJSON_number version hver]
    rfl

theorem UpdatePage_sends_id_and_version_witness :
    (∀ req, UpdatePage.request {} (Env.sample refused) (lit "TST") (lit "3604482")
          (lit "new page") (lit "<p>x</p>") (-2) = .ok req →
        req.Body = some (UpdatePage.page (lit "TST") (lit "3604482") (lit "new page")
          (lit "<p>x</p>") (-2)).toJSON)
      ∧ ((UpdatePage.page (lit "TST") (lit "3604482") (lit "new page") (lit "<p>x</p>")
          (-2)).toJSON.get "id").bind JSON.asString = some (lit "3604482")
      ∧ (((UpdatePage.page (lit "TST") (lit "3604482") (lit "new page") (lit "<p>x</p>")
          (-2)).toJSON.get "version").bind fun v => (v.get "number").bind JSON.asInt)
        = some (-2) :=
  UpdatePage_sends_id_and_version {} (Env.sample refused) (lit "TST") (lit "3604482") (lit "new page")
    (lit "<p>x</p>") (-2) (by decide) (by decide) (by decide)

/-! ## Transport failure -/

/-- C5, as stated, fails: when the connection is refused `CreatePage` returns
the transport error together with the page it built for the request, which
is not the zero `Page`. -/
theorem CreatePage_refused_returns_built_page :
    (Client.CreatePage {} (Env.sample refused) (lit "TST") (lit "456") (lit "new page")
        (lit "<p>x</p>")).2 = some (.transport "connection refused")
      ∧ (Client.CreatePage {} (Env.sample refused) (lit "TST") (lit "456") (lit "new page")
        (lit "<p>x</p>")).1 ≠ {} := by
  decide

/-- C5, amended. When every exchange fails at the transport level, each of
`CreatePage`, `UpdatePage` and `GetPage` returns a non-nil error, for all
arguments; `GetPage` returns the zero `Page` with it, while `CreatePage` and
`UpdatePage` return the page they built for the request. -/
theorem operations_fail_when_transport_fails (c : Client) (env : Env)
    (hfail : ∀ req, ∃ err, env.Do req = .error err)
    (space parentId id title body : GoString) (version : Int) :
    ((c.CreatePage env space parentId title body).2 ≠ none
        ∧ (c.CreatePage env space parentId title body).1
          = CreatePage.page space parentId title body)
      ∧ ((c.UpdatePage env space id title body version).2 ≠ none
        ∧ (c.UpdatePage env space id title body version).1
          = UpdatePage.page space id title body version)
      ∧ ((c.GetPage env id).2 ≠ none ∧ (c.GetPage env id).1 = {}) := by
  refine ⟨?_, ?_, ?_⟩
  · unfold Client.CreatePage
    cases CreatePage.request c env space parentId title body with
    | error e => simp
    | ok req =>
      obtain ⟨err, herr⟩ := hfail (c.authorize req)
      simp [Client.do, herr]
  · unfold Client.UpdatePage
    cases UpdatePage.request c env space id title body version with
    | error e => simp
    | ok req =>
      obtain ⟨err, herr⟩ := hfail (c.authorize req)
      simp [Client.do, herr]
  · unfold Client.GetPage
    cases GetPage.request c env id with
    | error e => simp
    | ok req =>
      obtain ⟨err, herr⟩ := hfail (c.authorize req)
      simp [Client.do, herr]

theorem operations_fail_when_transport_fails_witness :
    (((Client.CreatePage {} (Env.sample refused) (lit "TST") (lit "456") (lit "new page")
          (lit "<p>x</p>")).2 ≠ none
        ∧ (Client.CreatePage {} (Env.sample refused) (lit "TST") (lit "456") (lit "new page")
          (lit "<p>x</p>")).1
          = CreatePage.page (lit "TST") (lit "456") (lit "new page") (lit "<p>x</p>"))
      ∧ ((Client.UpdatePage {} (Env.sample refused) (lit "TST") (lit "3604482")
          (lit "new page") (lit "<p>x</p>") 2).2 ≠ none
        ∧ (Client.UpdatePage {} (Env.sample refused) (lit "TST") (lit "3604482")
          (lit "new page") (lit "<p>x</p>") 2).1
          = UpdatePage.page (lit "TST") (lit "3604482") (lit "new page") (lit "<p>x</p>") 2)
      ∧ ((Client.GetPage {} (Env.sample refused) (lit "3604482")).2 ≠ none
        ∧ (Client.GetPage {} (Env.sample refused) (lit "3604482")).1 = {})) :=
  operations_fail_when_transport_fails {} (Env.sample refused) (fun _ => ⟨_, rfl⟩) (lit "TST") (lit "456")
    (lit "3604482") (lit "new page") (lit "<p>x</p>") 2

/-! ## Method and URL of the requests -/

theorem span_not_mem (c : UInt8) : ∀ l : GoString, c ∉ l → l.span (fun b => b != c) = (l, []) := by
  intro l h
  rw [List.span_eq_take_drop]
  have h1 : ∀ b ∈ l, (b != c) = true := by
    intro b hb
    simp only [bne_iff_ne, ne_eq]
    intro hbc
    exact h (hbc ▸ hb)
  rw [List.takeWhile_eq_self_iff.mpr h1, List.dropWhile_eq_nil_iff.mpr h1]

theorem cutFragment_not_mem (s : GoString) (h : 35 ∉ s) : cutFragment s = (s, []) := by
  rw [cutFragment, span_not_mem 35 s h]
  rfl

theorem cutQuery_not_mem (s : GoString) (h : 63 ∉ s) : cutQuery s = (s, []) := by
  rw [cutQuery, span_not_mem 63 s h]
  rfl

theorem cutQuery_append (x y : GoString) (h : 63 ∉ x) :
    (cutQuery (x ++ y)).2 = (cutQuery y).2 := by
  induction x with
  | nil => rfl
  | cons a x ih =>
    have ha : a ≠ 63 := fun e => h (e ▸ List.mem_cons_self _ _)
    have hx : 63 ∉ x := fun e => h (List.mem_cons_of_mem _ e)
    have := ih hx
    simp only [cutQuery, List.span_eq_take_drop] at this ⊢
    simpa [List.dropWhile_cons, ha] using this


theorem getSchemeAux_split (raw : GoString) :
    ∀ (rest : GoString) (i : Nat) (sch p : GoString),
      getSchemeAux raw i rest = .ok (sch, p) →
      p = raw ∨ ∃ pre, rest = pre ++ 58 :: p ∧ 63 ∉ pre := by
  intro rest
  induction rest with
  | nil =>
    intro i sch p h
    simp [getSchemeAux] at h
    exact Or.inl h.2.symm
  | cons c rest ih =>
    intro i sch p h
    have hstep : ∀ j, c ≠ 63 → getSchemeAux raw j rest = .ok (sch, p) →
        p = raw ∨ ∃ pre, c :: rest = pre ++ 58 :: p ∧ 63 ∉ pre := by
      intro j hc hj
      rcases ih j sch p hj with h1 | ⟨pre, hpre, hq⟩
      · exact Or.inl h1
      · refine Or.inr ⟨c :: pre, by rw [hpre]; rfl, ?_⟩
        intro hm
        rcases List.mem_cons.mp hm with e | e
        · exact hc e.symm
        · exact hq e
    unfold getSchemeAux at h
    split at h
    · rename_i hl
      refine hstep _ ?_ h
      intro e
      subst e
      revert hl
      decide
    · split at h
      · rename_i hd
        split at h
        · simp at h; exact Or.inl h.2.symm
        · refine hstep _ ?_ h
          intro e
          subst e
          revert hd
          decide
      · split at h
        · rename_i hcolon
          split at h
          · simp at h
          · simp only [Except.ok.injEq, Prod.mk.injEq] at h
            have hc : c = 58 := by simpa using hcolon
            exact Or.inr ⟨[], by rw [hc, h.2]; rfl, by simp⟩
        · simp at h; exact Or.inl h.2.symm

theorem getScheme_rest (raw sch p : GoString) (h : getScheme raw = .ok (sch, p)) :
    (cutQuery p).2 = (cutQuery raw).2 ∧ (p.getLast? = some 63 → raw.getLast? = some 63) := by
  rcases getSchemeAux_split raw raw 0 sch p h with h1 | ⟨pre, hpre, hq⟩
  · subst h1
    exact ⟨rfl, id⟩
  · constructor
    · have h2 : (63 : UInt8) ∉ pre ++ [58] := by
        intro hm
        rcases List.mem_append.mp hm with e | e
        · exact hq e
        · simp at e
      have := cutQuery_append (pre ++ [58]) p h2
      rw [hpre]
      simpa using this.symm
    · intro hl
      rw [hpre]
      cases p with
      | nil => simp at hl
      | cons a t =>
        simp [List.getLast?_append, List.getLast?_cons_cons, hl]


theorem setPath_keeps (u u2 : URL) (p : GoString) (h : setPath u p = .ok u2) :
    u2.RawQuery = u.RawQuery ∧ u2.ForceQuery = u.ForceQuery ∧ u2.Fragment = u.Fragment
      ∧ u2.RawFragment = u.RawFragment := by
  unfold setPath at h
  split at h
  · simp at h
  · simp only [Except.ok.injEq] at h
    subst h
    exact ⟨rfl, rfl, rfl, rfl⟩

theorem parseReference_query (pa : GoString → Except Error (Option Userinfo × GoString))
    (raw : GoString) (u : URL) (h : parseReference pa raw = .ok u)
    (hlast : raw.getLast? ≠ some 63) :
    u.RawQuery = (cutQuery raw).2 ∧ u.ForceQuery = false ∧ u.Fragment = []
      ∧ u.RawFragment = [] := by
  unfold parseReference at h
  split at h
  · simp at h
  · split at h
    · rename_i hstar
      simp only [Except.ok.injEq] at h
      subst h
      subst hstar
      decide
    · cases hg : getScheme raw with
      | error e => simp [hg] at h
      | ok sp =>
        obtain ⟨scheme, rest0⟩ := sp
        obtain ⟨hq, hl⟩ := getScheme_rest raw scheme rest0 hg
        have hfq : (rest0.getLast? = some 63 && rest0.count 63 = 1) = false := by
          cases hx : decide (rest0.getLast? = some 63) with
          | false => simp [hx]
          | true => exact absurd (hl (of_decide_eq_true hx)) hlast
        simp only [hg, hfq, Bool.false_eq_true, if_false] at h
        rw [← hq]
        split at h
        · simp only [Except.ok.injEq] at h
          subst h
          exact ⟨rfl, rfl, rfl, rfl⟩
        · split at h
          · simp at h
          · split at h
            · split at h
              · simp at h
              · have := setPath_keeps _ _ _ h
                exact this
            · split at h
              · exact setPath_keeps _ _ _ h
              · exact setPath_keeps _ _ _ h

theorem Parse_query (pa : GoString → Except Error (Option Userinfo × GoString))
    (raw : GoString) (u : URL) (h : Parse pa raw = .ok u) (hfrag : 35 ∉ raw)
    (hlast : raw.getLast? ≠ some 63) :
    u.RawQuery = (cutQuery raw).2 ∧ u.ForceQuery = false ∧ u.Fragment = []
      ∧ u.RawFragment = [] := by
  unfold Parse at h
  rw [cutFragment_not_mem raw hfrag] at h
  simp only at h
  split at h
  · simp at h
  · rename_i url hurl
    simp only [if_true, Except.ok.injEq] at h
    subst h
    exact parseReference_query pa raw _ hurl hlast

theorem newRequest_parsed (c : Client) (env : Env) (method path : GoString)
    (body : Option Page) (hne : method ≠ []) (hvalid : validMethod method = true) :
    match Parse env.parseAuthority (env.urlString c.BaseURL ++ path) with
    | .error err => c.newRequest env method path body = .error err
    | .ok u => ∃ req, c.newRequest env method path body = .ok req ∧ req.Method = method
        ∧ req.URL = { u with Host := removeEmptyPort u.Host }
        ∧ req.Body = body.map Page.toJSON := by
  unfold Client.newRequest NewRequest
  simp only [if_neg hne, hvalid, Bool.not_true, Bool.false_eq_true, if_false]
  cases hp : Parse env.parseAuthority (env.urlString c.BaseURL ++ path) with
  | error err => rfl
  | ok u => cases body <;> exact ⟨_, rfl, rfl, rfl, rfl⟩

theorem newRequest_query (c : Client) (env : Env) (method path : GoString)
    (body : Option Page) (req : Request) (h : c.newRequest env method path body = .ok req)
    (hfrag : 35 ∉ env.urlString c.BaseURL ++ path)
    (hlast : (env.urlString c.BaseURL ++ path).getLast? ≠ some 63) :
    req.URL.RawQuery = (cutQuery (env.urlString c.BaseURL ++ path)).2
      ∧ req.URL.ForceQuery = false ∧ req.URL.Fragment = [] := by
  unfold Client.newRequest at h
  simp only [] at h
  split at h
  · simp at h
  · rename_i req0 h0
    obtain ⟨u, hu, hreq0⟩ := NewRequest_ok _ _ _ _ _ h0
    obtain ⟨h1, h2, h3, _⟩ := Parse_query _ _ _ hu hfrag hlast
    simp only [Except.ok.injEq] at h
    subst h
    subst hreq0
    cases body <;> exact ⟨h1, h2, h3⟩

/-- C6, as stated, fails: the request holds the URL that `http.NewRequest`
parses from the concatenated string, so that an id is not taken literally.
With the id `1#x` the request of `GetPage` is for the path ending in
`/content/1`, has no query at all, and `x?expand=body.storage,version` is its
fragment; with the id `a?b` the request of `UpdatePage` is for the path
ending in `/content/a`, with the query `b`. -/
theorem request_url_is_parsed :
    (match GetPage.request Client.sample (Env.sample refused) (lit "1#x") with
      | .ok req => some (req.Method, req.URL)
      | .error _ => none)
      = some (lit "GET", { Scheme := lit "https", Host := lit "hostname",
                           Path := lit "/confluence/rest/api/content/1",
                           RawQuery := [],
                           Fragment := lit "x?expand=body.storage,version" })
    ∧ (match UpdatePage.request Client.sample (Env.sample refused) (lit "TST") (lit "a?b")
          (lit "new page") (lit "<p>x</p>") 2 with
      | .ok req => some (req.Method, req.URL)
      | .error _ => none)
      = some (lit "PUT", { Scheme := lit "https", Host := lit "hostname",
                           Path := lit "/confluence/rest/api/content/a",
                           RawQuery := lit "b" }) := by
  decide

/-- C6, amended. With B the string of the base URL of the client, `CreatePage`
gives `http.NewRequest` the method POST and the string B + `/content/`,
`UpdatePage` the method PUT and B + `/content/` + id, `GetPage` the method
GET, B + `/content/` + id + `?expand=body.storage,version` and no body, the
id being concatenated as it is.  When `url.Parse` rejects that string the
operation returns its error and sends nothing; otherwise the request it
sends has that method and the parsed URL.  When neither B nor id contains
`#` or `?`, the parsed URL has no fragment, and its query is
`expand=body.storage,version` for `GetPage` and empty for the other two. -/
theorem request_method_and_url (c : Client) (env : Env)
    (space parentId id title body : GoString) (version : Int) :
    (match Parse env.parseAuthority (env.urlString c.BaseURL ++ lit "/content/") with
      | .error err => c.CreatePage env space parentId title body
          = (CreatePage.page space parentId title body, some err)
      | .ok u => ∃ req, CreatePage.request c env space parentId title body = .ok req
          ∧ req.Method = lit "POST" ∧ req.URL = { u with Host := removeEmptyPort u.Host }
          ∧ c.CreatePage env space parentId title body
            = ((c.do env req (CreatePage.page space parentId title body)).2.1,
               (c.do env req (CreatePage.page space parentId title body)).2.2))
    ∧ (match Parse env.parseAuthority (env.urlString c.BaseURL ++ lit "/content/" ++ id) with
      | .error err => c.UpdatePage env space id title body version
          = (UpdatePage.page space id title body version, some err)
      | .ok u => ∃ req, UpdatePage.request c env space id title body version = .ok req
          ∧ req.Method = lit "PUT" ∧ req.URL = { u with Host := removeEmptyPort u.Host }
          ∧ c.UpdatePage env space id title body version
            = ((c.do env req (UpdatePage.page space id title body version)).2.1,
               (c.do env req (UpdatePage.page space id title body version)).2.2))
    ∧ (match Parse env.parseAuthority (env.urlString c.BaseURL ++ lit "/content/" ++ id
          ++ lit "?expand=body.storage,version") with
      | .error err => c.GetPage env id = ({}, some err)
      | .ok u => ∃ req, GetPage.request c env id = .ok req
          ∧ req.Method = lit "GET" ∧ req.URL = { u with Host := removeEmptyPort u.Host }
          ∧ req.Body = none
          ∧ c.GetPage env id = ((c.do env req {}).2.1, (c.do env req {}).2.2))
    ∧ (35 ∉ env.urlString c.BaseURL → 63 ∉ env.urlString c.BaseURL → 35 ∉ id → 63 ∉ id →
        (∀ req, CreatePage.request c env space parentId title body = .ok req →
          req.URL.RawQuery = [] ∧ req.URL.ForceQuery = false ∧ req.URL.Fragment = [])
        ∧ (∀ req, UpdatePage.request c env space id title body version = .ok req →
          req.URL.RawQuery = [] ∧ req.URL.ForceQuery = false ∧ req.URL.Fragment = [])
        ∧ (∀ req, GetPage.request c env id = .ok req →
          req.URL.RawQuery = lit "expand=body.storage,version" ∧ req.URL.ForceQuery = false
            ∧ req.URL.Fragment = [])) := by
  refine ⟨?_, ?_, ?_, ?_⟩
  · have h := newRequest_parsed c env (lit "POST") (lit "/content/")
      (some (CreatePage.page space parentId title body)) (by decide) (by decide)
    unfold Client.CreatePage CreatePage.request
    split <;> rename_i heq <;> rw [heq] at h <;> simp only at h
    · rw [h]
    · obtain ⟨req, hreq, hm, hu, _⟩ := h
      exact ⟨req, hreq, hm, hu, by rw [hreq]⟩
  · have h := newRequest_parsed c env (lit "PUT") (lit "/content/" ++ id)
      (some (UpdatePage.page space id title body version)) (by decide) (by decide)
    unfold Client.UpdatePage UpdatePage.request
    simp only [List.append_assoc]
    split <;> rename_i heq <;> rw [heq] at h <;> simp only at h
    · rw [h]
    · obtain ⟨req, hreq, hm, hu, _⟩ := h
      exact ⟨req, hreq, hm, hu, by rw [hreq]⟩
  · have h := newRequest_parsed c env (lit "GET")
      (lit "/content/" ++ id ++ lit "?expand=body.storage,version") none (by decide) (by decide)
    unfold Client.GetPage GetPage.request
    simp only [List.append_assoc] at h ⊢
    split <;> rename_i heq <;> rw [heq] at h <;> simp only at h
    · rw [h]
    · obtain ⟨req, hreq, hm, hu, hb⟩ := h
      exact ⟨req, hreq, hm, hu, hb, by rw [hreq]⟩
  · intro hB1 hB2 hi1 hi2
    have hc1 : (35 : UInt8) ∉ lit "/content/" := by decide
    have hc2 : (63 : UInt8) ∉ lit "/content/" := by decide
    have he1 : (35 : UInt8) ∉ lit "?expand=body.storage,version" := by decide
    refine ⟨?_, ?_, ?_⟩
    · intro req hreq
      have hq : (63 : UInt8) ∉ env.urlString c.BaseURL ++ lit "/content/" := by
        simp only [List.mem_append, not_or]; exact ⟨hB2, hc2⟩
      have h := newRequest_query c env _ _ _ req hreq
        (by simp only [List.mem_append, not_or]; exact ⟨hB1, hc1⟩)
        (fun hl => hq (List.mem_of_getLast?_eq_some hl))
      rw [cutQuery_not_mem _ hq] at h
      exact h
    · intro req hreq
      have hq : (63 : UInt8) ∉ env.urlString c.BaseURL ++ (lit "/content/" ++ id) := by
        simp only [List.mem_append, not_or]; exact ⟨hB2, hc2, hi2⟩
      have h := newRequest_query c env _ _ _ req hreq
        (by simp only [List.mem_append, not_or]; exact ⟨hB1, hc1, hi1⟩)
        (fun hl => hq (List.mem_of_getLast?_eq_some hl))
      rw [cutQuery_not_mem _ hq] at h
      exact h
    · intro req hreq
      have hq : (63 : UInt8) ∉ env.urlString c.BaseURL ++ lit "/content/" ++ id := by
        simp only [List.mem_append, not_or]; exact ⟨⟨hB2, hc2⟩, hi2⟩
      have hs : env.urlString c.BaseURL
            ++ (lit "/content/" ++ id ++ lit "?expand=body.storage,version")
          = (env.urlString c.BaseURL ++ lit "/content/" ++ id)
            ++ 63 :: lit "expand=body.storage,version" := by
        simp only [List.append_assoc]; rfl
      have h := newRequest_query c env _ _ _ req hreq
        (by simp only [List.mem_append, not_or]; exact ⟨hB1, ⟨hc1, hi1⟩, he1⟩)
        (by
          have hl : (63 :: lit "expand=body.storage,version").getLast? = some 110 := by decide
          rw [hs, List.getLast?_append, hl]
          simp [Option.or])
      rw [hs, cutQuery_append _ _ hq] at h
      exact h

theorem request_method_and_url_witness :
    ∃ req, GetPage.request Client.sample (Env.sample refused) (lit "64819209") = .ok req
      ∧ req.Method = lit "GET"
      ∧ req.URL = { Scheme := lit "https", Host := lit "hostname",
                    Path := lit "/confluence/rest/api/content/64819209",
                    RawQuery := lit "expand=body.storage,version" }
      ∧ req.URL.Fragment = [] := by
  have h := request_method_and_url Client.sample (Env.sample refused) (lit "TST") (lit "456")
    (lit "64819209") (lit "new page") (lit "<p>x</p>") 2
  have h3 : ∃ req, GetPage.request Client.sample (Env.sample refused) (lit "64819209") = .ok req
      ∧ req.Method = lit "GET"
      ∧ req.URL = { Scheme := lit "https", Host := lit "hostname",
                    Path := lit "/confluence/rest/api/content/64819209",
                    RawQuery := lit "expand=body.storage,version" }
      ∧ req.Body = none
      ∧ Client.GetPage Client.sample (Env.sample refused) (lit "64819209")
        = ((Client.do Client.sample (Env.sample refused) req {}).2.1,
           (Client.do Client.sample (Env.sample refused) req {}).2.2) := h.2.2.1
  obtain ⟨req, hreq, hm, hu, _, _⟩ := h3
  exact ⟨req, hreq, hm, hu,
    ((h.2.2.2 (by decide) (by decide) (by decide) (by decide)).2.2 req hreq).2.2⟩




/-! ## Basic authentication -/

theorem decodeMap_encodeChar : ∀ i, i < 64 → decodeMap (encodeChar i) = some i := by
  decide

theorem encodeChar_ne_padChar : ∀ i, i < 64 → encodeChar i ≠ padChar := by
  decide

theorem DecodeString_block (c0 c1 c2 c3 : UInt8) (tail out : GoString) (v0 v1 v2 v3 : Nat)
    (h0 : decodeMap c0 = some v0) (h1 : decodeMap c1 = some v1) (h2 : decodeMap c2 = some v2)
    (h3 : decodeMap c3 = some v3) (p2 : c2 ≠ padChar) (p3 : c3 ≠ padChar)
    (ht : DecodeString tail = some out) :
    DecodeString (c0 :: c1 :: c2 :: c3 :: tail)
      = some (UInt8.ofNat (v0 * 4 + v1 / 16) :: UInt8.ofNat (v1 % 16 * 16 + v2 / 4)
          :: UInt8.ofNat (v2 % 4 * 64 + v3) :: out) := by
  cases tail with
  | nil =>
    simp [DecodeString] at ht
    subst ht
    simp [DecodeString, h0, h1, h2, h3, p2, p3]
  | cons t0 tt =>
    simp [DecodeString, h0, h1, h2, h3, ht]

theorem ofNat_toNat (a : UInt8) : UInt8.ofNat a.toNat = a := by
  apply UInt8.ext_iff.mpr
  rw [UInt8.toNat_ofNat_of_lt a.toNat_lt]

theorem DecodeString_EncodeToString (s : GoString) : DecodeString (EncodeToString s) = some s := by
  induction s using EncodeToString.induct with
  | case1 => rfl
  | case2 a =>
    have ha := a.toNat_lt
    have e0 := decodeMap_encodeChar (a.toNat * 65536 / 262144 % 64) (Nat.mod_lt _ (by decide))
    have e1 := decodeMap_encodeChar (a.toNat * 65536 / 4096 % 64) (Nat.mod_lt _ (by decide))
    have k0 : a.toNat * 65536 / 262144 % 64 * 4 + a.toNat * 65536 / 4096 % 64 / 16 = a.toNat := by
      omega
    have k : a.toNat * 65536 / 4096 % 64 % 16 = 0 := by omega
    simp [EncodeToString, DecodeString, e0, e1, k0, k, ofNat_toNat]
  | case3 a b =>
    have ha := a.toNat_lt
    have hb := b.toNat_lt
    have e0 := decodeMap_encodeChar ((a.toNat * 65536 + b.toNat * 256) / 262144 % 64)
      (Nat.mod_lt _ (by decide))
    have e1 := decodeMap_encodeChar ((a.toNat * 65536 + b.toNat * 256) / 4096 % 64)
      (Nat.mod_lt _ (by decide))
    have e2 := decodeMap_encodeChar ((a.toNat * 65536 + b.toNat * 256) / 64 % 64)
      (Nat.mod_lt _ (by decide))
    have p2 := encodeChar_ne_padChar ((a.toNat * 65536 + b.toNat * 256) / 64 % 64)
      (Nat.mod_lt _ (by decide))
    have k0 : (a.toNat * 65536 + b.toNat * 256) / 262144 % 64 * 4
        + (a.toNat * 65536 + b.toNat * 256) / 4096 % 64 / 16 = a.toNat := by omega
    have k1 : (a.toNat * 65536 + b.toNat * 256) / 4096 % 64 % 16 * 16
        + (a.toNat * 65536 + b.toNat * 256) / 64 % 64 / 4 = b.toNat := by omega
    have k : (a.toNat * 65536 + b.toNat * 256) / 64 % 64 % 4 = 0 := by omega
    simp [EncodeToString, DecodeString, e0, e1, e2, p2, k0, k1, k, ofNat_toNat]
  | case4 a b c rest ih =>
    have ha := a.toNat_lt
    have hb := b.toNat_lt
    have hc := c.toNat_lt
    have h := DecodeString_block
      (encodeChar ((a.toNat * 65536 + b.toNat * 256 + c.toNat) / 262144 % 64))
      (encodeChar ((a.toNat * 65536 + b.toNat * 256 + c.toNat) / 4096 % 64))
      (encodeChar ((a.toNat * 65536 + b.toNat * 256 + c.toNat) / 64 % 64))
      (encodeChar ((a.toNat * 65536 + b.toNat * 256 + c.toNat) % 64))
      (EncodeToString rest) rest _ _ _ _
      (decodeMap_encodeChar _ (Nat.mod_lt _ (by decide)))
      (decodeMap_encodeChar _ (Nat.mod_lt _ (by decide)))
      (decodeMap_encodeChar _ (Nat.mod_lt _ (by decide)))
      (decodeMap_encodeChar _ (Nat.mod_lt _ (by decide)))
      (encodeChar_ne_padChar _ (Nat.mod_lt _ (by decide)))
      (encodeChar_ne_padChar _ (Nat.mod_lt _ (by decide))) ih
    have k0 : (a.toNat * 65536 + b.toNat * 256 + c.toNat) / 262144 % 64 * 4
        + (a.toNat * 65536 + b.toNat * 256 + c.toNat) / 4096 % 64 / 16 = a.toNat := by omega
    have k1 : (a.toNat * 65536 + b.toNat * 256 + c.toNat) / 4096 % 64 % 16 * 16
        + (a.toNat * 65536 + b.toNat * 256 + c.toNat) / 64 % 64 / 4 = b.toNat := by omega
    have k2 : (a.toNat * 65536 + b.toNat * 256 + c.toNat) / 64 % 64 % 4 * 64
        + (a.toNat * 65536 + b.toNat * 256 + c.toNat) % 64 = c.toNat := by omega
    rw [k0, k1, k2, ofNat_toNat, ofNat_toNat, ofNat_toNat] at h
    simpa only [EncodeToString] using h

/-- C7. The request `do` hands to the HTTP client is the given request with
one more `Authorization` value: `Basic ` followed by the padded standard
base64 encoding of the bytes of Username + `:` + Password.  The value depends
on the two credentials only, and decoding what follows `Basic ` gives back
Username + `:` + Password. -/
theorem authorization_header (c : Client) (env : Env) (req : Request) (v : Page) :
    c.do env req v
        = (match env.Do (c.authorize req) with
          | .error err => (none, v, some err)
          | .ok resp => (some resp, (Decode resp.Body v).1, (Decode resp.Body v).2))
      ∧ (c.authorize req).header "Authorization"
        = req.header "Authorization"
            ++ [lit "Basic " ++ EncodeToString (c.Username ++ lit ":" ++ c.Password)]
      ∧ (∀ (c2 : Client) (req2 : Request), c2.Username = c.Username → c2.Password = c.Password →
          ((c2.authorize req2).header "Authorization").getLast?
            = ((c.authorize req).header "Authorization").getLast?)
      ∧ DecodeString ((lit "Basic " ++ EncodeToString (c.Username ++ lit ":" ++ c.Password)).drop
          (lit "Basic ").length) = some (c.Username ++ lit ":" ++ c.Password) := by
  have hh : ∀ (d : Client) (r : Request), (d.authorize r).header "Authorization"
      = r.header "Authorization"
        ++ [lit "Basic " ++ EncodeToString (d.Username ++ lit ":" ++ d.Password)] := by
    intro d r
    simp [Client.authorize, Request.addHeader, Request.header, Client.basicAuth]
  refine ⟨rfl, hh c req, ?_, ?_⟩
  · intro c2 req2 hu hp
    rw [hh, hh, hu, hp]
    simp
  · rw [List.drop_left]
    exact DecodeString_EncodeToString _

/-! ## The encoding of a page decodes without error -/

theorem foldl_saveError_none {α : Type} (names : List String)
    (set : α → Nat → JSON → α × Option Error) :
    ∀ (members : List (String × JSON)) (acc : α × Option Error), acc.2 = none →
      (∀ m ∈ members, ∀ i, fieldIndex names m.1 = some i → ∀ w, (set w i m.2).2 = none) →
      (members.foldl (fun acc m =>
        match fieldIndex names m.1 with
        | none => acc
        | some i => ((set acc.1 i m.2).1, saveError acc.2 (set acc.1 i m.2).2)) acc).2
        = none := by
  intro members
  induction members with
  | nil => intro acc h _; exact h
  | cons m ms ih =>
    intro acc hacc hms
    rw [List.foldl_cons]
    apply ih
    · cases hfi : fieldIndex names m.1 with
      | none => exact hacc
      | some i =>
        simp only [hacc, saveError]
        exact hms m (List.mem_cons_self _ _) i hfi acc.1
    · intro x hx
      exact hms x (List.mem_cons_of_mem _ hx)

theorem decodeStruct_encode_ok {α : Type} (names : List String)
    (set : α → Nat → JSON → α × Option Error) (goType : String) (fields : List Field)
    (h : ∀ f ∈ fields, isEmptyValue f.val = false → ∀ w,
      match fieldIndex names f.name with
      | some i => (set w i f.val.toJSON).2 = none
      | none => True) (v : α) :
    (decodeStruct names set goType v (structEncode fields)).2 = none := by
  simp only [decodeStruct, structEncode]
  apply foldl_saveError_none names set _ (v, none) rfl
  intro m hm i hi w
  rw [List.mem_filterMap] at hm
  obtain ⟨f, hf, hfm⟩ := hm
  split at hfm
  · simp at hfm
  · rename_i he
    simp only [Option.some.injEq] at hfm
    subst hfm
    have hw := h f hf (by simpa using he) w
    simp only [hi] at hw
    exact hw

theorem decodePtr_encode_ok {α : Type} (zero : α) (dec : α → JSON → α × Option Error)
    (old : Option α) (fields : List Field)
    (h : ∀ w, (dec w (structEncode fields)).2 = none) :
    (decodePtr zero dec old (structEncode fields)).2 = none := by
  simp only [decodePtr, structEncode, store]
  exact h _

theorem decodeInt_ok (old n : Int) (h : intFits n = true) :
    (decodeInt old (.int n)).2 = none := by
  simp only [intFits, decide_eq_true_eq] at h
  simp [decodeInt, h]

theorem ProfilePicture_decode_ok (p v : ProfilePicture) (hp : p.fits = true) :
    (ProfilePicture.decode v p.toJSON).2 = none := by
  simp only [ProfilePicture.fits, Bool.and_eq_true] at hp
  apply decodeStruct_encode_ok
  intro f hf he w
  simp only [ProfilePicture.fields, List.mem_cons, List.mem_singleton, List.not_mem_nil, or_false] at hf
  rcases hf with rfl | rfl | rfl | rfl
  · exact rfl
  · exact decodeInt_ok _ _ hp.1
  · exact decodeInt_ok _ _ hp.2
  · cases hb : p.IsDefault with
    | false => simp [isEmptyValue, hb] at he
    | true => exact rfl

theorem Expendable_decode_ok (p v : Expendable) :
    (Expendable.decode v p.toJSON).2 = none := by
  apply decodeStruct_encode_ok
  intro f hf he w
  simp only [Expendable.fields, List.mem_cons, List.mem_singleton, List.not_mem_nil, or_false] at hf
  rcases hf with rfl | rfl | rfl | rfl | rfl | rfl | rfl | rfl | rfl | rfl | rfl | rfl | rfl | rfl | rfl <;> exact rfl

theorem Links_decode_ok (p v : Links) :
    (Links.decode v p.toJSON).2 = none := by
  apply decodeStruct_encode_ok
  intro f hf he w
  simp only [Links.fields, List.mem_cons, List.mem_singleton, List.not_mem_nil, or_false] at hf
  rcases hf with rfl | rfl | rfl | rfl | rfl <;> exact rfl

theorem By_decode_ok (p v : By) (hp : p.fits = true) :
    (By.decode v p.toJSON).2 = none := by
  simp only [By.fits, Bool.and_eq_true] at hp
  apply decodeStruct_encode_ok
  intro f hf he w
  simp only [By.fields, List.mem_cons, List.mem_singleton, List.not_mem_nil, or_false] at hf
  rcases hf with rfl | rfl | rfl | rfl | rfl | rfl | rfl
  · exact rfl
  · exact rfl
  · exact rfl
  · cases hx : p.ProfilePicture with
    | none => simp [isEmptyValue, hx] at he
    | some x =>
      have hfit : x.fits = true := by simpa [hx] using hp
      exact decodePtr_encode_ok _ _ _ _ (fun w => ProfilePicture_decode_ok x w hfit)
  · exact rfl
  · cases hx : p.Links with
    | none => simp [isEmptyValue, hx] at he
    | some x => exact decodePtr_encode_ok _ _ _ _ (fun w => Links_decode_ok x w)
  · cases hx : p.Expendable with
    | none => simp [isEmptyValue, hx] at he
    | some x => exact decodePtr_encode_ok _ _ _ _ (fun w => Expendable_decode_ok x w)

theorem History_decode_ok (p v : History) (hp : p.fits = true) :
    (History.decode v p.toJSON).2 = none := by
  simp only [History.fits, Bool.and_eq_true] at hp
  apply decodeStruct_encode_ok
  intro f hf he w
  simp only [History.fields, List.mem_cons, List.mem_singleton, List.not_mem_nil, or_false] at hf
  rcases hf with rfl | rfl
  · cases hb : p.Latest with
    | false => simp [isEmptyValue, hb] at he
    | true => exact rfl
  · cases hx : p.CreatedBy with
    | none => simp [isEmptyValue, hx] at he
    | some x =>
      have hfit : x.fits = true := by simpa [hx] using hp
      exact decodePtr_encode_ok _ _ _ _ (fun w => By_decode_ok x w hfit)

theorem Storage_decode_ok (p v : Storage) :
    (Storage.decode v p.toJSON).2 = none := by
  apply decodeStruct_encode_ok
  intro f hf he w
  simp only [Storage.fields, List.mem_cons, List.mem_singleton, List.not_mem_nil, or_false] at hf
  rcases hf with rfl | rfl | rfl
  · exact rfl
  · exact rfl
  · cases hx : p.Expendable with
    | none => simp [isEmptyValue, hx] at he
    | some x => exact decodePtr_encode_ok _ _ _ _ (fun w => Expendable_decode_ok x w)

theorem BodyPart_decode_ok (p v : BodyPart) :
    (BodyPart.decode v p.toJSON).2 = none := by
  apply decodeStruct_encode_ok
  intro f hf he w
  simp only [BodyPart.fields, List.mem_cons, List.mem_singleton, List.not_mem_nil, or_false] at hf
  subst hf
  · cases hx : p.Expendable with
    | none => simp [isEmptyValue, hx] at he
    | some x => exact decodePtr_encode_ok _ _ _ _ (fun w => Expendable_decode_ok x w)

theorem Body_decode_ok (p v : Body) :
    (Body.decode v p.toJSON).2 = none := by
  apply decodeStruct_encode_ok
  intro f hf he w
  simp only [Body.fields, List.mem_cons, List.mem_singleton, List.not_mem_nil, or_false] at hf
  rcases hf with rfl | rfl | rfl | rfl
  · cases hx : p.Editor with
    | none => simp [isEmptyValue, hx] at he
    | some x => exact decodePtr_encode_ok _ _ _ _ (fun w => BodyPart_decode_ok x w)
  · exact rfl
  · exact rfl
  · cases hx : p.Storage with
    | none => simp [isEmptyValue, hx] at he
    | some x => exact decodePtr_encode_ok _ _ _ _ (fun w => Storage_decode_ok x w)

theorem Space_decode_ok (p v : Space) (hp : p.fits = true) :
    (Space.decode v p.toJSON).2 = none := by
  simp only [Space.fits, Bool.and_eq_true] at hp
  apply decodeStruct_encode_ok
  intro f hf he w
  simp only [Space.fields, List.mem_cons, List.mem_singleton, List.not_mem_nil, or_false] at hf
  rcases hf with rfl | rfl | rfl | rfl | rfl | rfl
  · exact decodeInt_ok _ _ hp
  · exact rfl
  · exact rfl
  · exact rfl
  · cases hx : p.Links with
    | none => simp [isEmptyValue, hx] at he
    | some x => exact decodePtr_encode_ok _ _ _ _ (fun w => Links_decode_ok x w)
  · cases hx : p.Expendable with
    | none => simp [isEmptyValue, hx] at he
    | some x => exact decodePtr_encode_ok _ _ _ _ (fun w => Expendable_decode_ok x w)

theorem Version_decode_ok (p v : Version) (hp : p.fits = true) :
    (Version.decode v p.toJSON).2 = none := by
  simp only [Version.fits, Bool.and_eq_true] at hp
  apply decodeStruct_encode_ok
  intro f hf he w
  simp only [Version.fields, List.mem_cons, List.mem_singleton, List.not_mem_nil, or_false] at hf
  rcases hf with rfl | rfl | rfl | rfl | rfl | rfl | rfl | rfl
  · cases hx : p.By with
    | none => simp [isEmptyValue, hx] at he
    | some x =>
      have hfit : x.fits = true := by simpa [hx] using hp.1
      exact decodePtr_encode_ok _ _ _ _ (fun w => By_decode_ok x w hfit)
  · exact rfl
  · exact rfl
  · exact decodeInt_ok _ _ hp.2
  · cases hb : p.MinorEdit with
    | false => simp [isEmptyValue, hb] at he
    | true => exact rfl
  · cases hb : p.Hidden with
    | false => simp [isEmptyValue, hb] at he
    | true => exact rfl
  · cases hx : p.Links with
    | none => simp [isEmptyValue, hx] at he
    | some x => exact decodePtr_encode_ok _ _ _ _ (fun w => Links_decode_ok x w)
  · cases hx : p.Expendable with
    | none => simp [isEmptyValue, hx] at he
    | some x => exact decodePtr_encode_ok _ _ _ _ (fun w => Expendable_decode_ok x w)

theorem Ancestor_decode_ok (p v : Ancestor) :
    (Ancestor.decode v p.toJSON).2 = none := by
  apply decodeStruct_encode_ok
  intro f hf he w
  simp only [Ancestor.fields, List.mem_cons, List.mem_singleton, List.not_mem_nil, or_false] at hf
  subst hf
  exact rfl

theorem decodeElems_ancestors_ok (elems : List (Option Ancestor)) :
    ∀ old : List (Option Ancestor),
      (decodeElems none (decodePtr {} Ancestor.decode) old
        (elems.map fun a => (a.map Ancestor.toJSON).getD .null)).2 = none := by
  induction elems with
  | nil => intro old; rfl
  | cons a rest ih =>
    intro old
    simp only [List.map_cons, decodeElems, ih, saveError]
    cases a with
    | none => rfl
    | some x =>
      have h := decodePtr_encode_ok {} Ancestor.decode (old.headD none) x.fields
        (fun w => Ancestor_decode_ok x w)
      simp only [Option.map_some', Option.getD_some, Ancestor.toJSON, h]

theorem Page_decode_ok (p v : Page) (hp : p.fits = true) :
    (Page.decode v p.toJSON).2 = none := by
  simp only [Page.fits, Bool.and_eq_true] at hp
  apply decodeStruct_encode_ok
  intro f hf he w
  simp only [Page.fields, List.mem_cons, List.mem_singleton, List.not_mem_nil, or_false] at hf
  rcases hf with rfl | rfl | rfl | rfl | rfl | rfl | rfl | rfl | rfl | rfl
  · cases hx : p.Expendable with
    | none => simp [isEmptyValue, hx] at he
    | some x => exact decodePtr_encode_ok _ _ _ _ (fun w => Expendable_decode_ok x w)
  · cases hx : p.Links with
    | none => simp [isEmptyValue, hx] at he
    | some x => exact decodePtr_encode_ok _ _ _ _ (fun w => Links_decode_ok x w)
  · exact rfl
  · exact rfl
  · exact rfl
  · cases hx : p.Body with
    | none => simp [isEmptyValue, hx] at he
    | some x => exact decodePtr_encode_ok _ _ _ _ (fun w => Body_decode_ok x w)
  · exact rfl
  · cases hx : p.Space with
    | none => simp [isEmptyValue, hx] at he
    | some x =>
      have hfit : x.fits = true := by simpa [hx] using hp.1
      exact decodePtr_encode_ok _ _ _ _ (fun w => Space_decode_ok x w hfit)
  · cases hx : p.Version with
    | none => simp [isEmptyValue, hx] at he
    | some x =>
      have hfit : x.fits = true := by simpa [hx] using hp.2
      exact decodePtr_encode_ok _ _ _ _ (fun w => Version_decode_ok x w hfit)
  · exact decodeElems_ancestors_ok _ _

/-! ## The status code is not read -/

/-- C9. The outcome of `do` does not depend on the status code: two
responses to a request that have the same body give the same error and the
same decoded value, whatever their status codes are; in particular a
response whose body is the JSON encoding of a `Page` gives no error, whatever
its status code is. -/
theorem do_ignores_status (c : Client) (env1 env2 : Env) (req : Request) (v : Page)
    (resp1 resp2 : Response)
    (h1 : env1.Do (c.authorize req) = .ok resp1) (h2 : env2.Do (c.authorize req) = .ok resp2)
    (hbody : resp1.Body = resp2.Body) :
    (c.do env1 req v).2 = (c.do env2 req v).2
      ∧ (∀ p : Page, p.fits = true → resp1.Body = .value p.toJSON →
          (c.do env1 req v).2.2 = none) := by
  constructor
  · simp [Client.do, h1, h2, hbody]
  · intro p hp hb
    simp only [Client.do, h1, hb, Decode]
    exact Page_decode_ok p v hp

theorem do_ignores_status_witness :
    (Client.do {} (Env.sample (.ok (Response.sample 404))) Request.sample {}).2
      = (Client.do {} (Env.sample (.ok (Response.sample 200))) Request.sample {}).2
      ∧ (Client.do {} (Env.sample (.ok (Response.sample 404))) Request.sample {}).2.2 = none :=
  ⟨(do_ignores_status {} (Env.sample (.ok (Response.sample 404)))
      (Env.sample (.ok (Response.sample 200))) Request.sample {} (Response.sample 404)
      (Response.sample 200) rfl rfl rfl).1,
    (do_ignores_status {} (Env.sample (.ok (Response.sample 404)))
      (Env.sample (.ok (Response.sample 200))) Request.sample {} (Response.sample 404)
      (Response.sample 200) rfl rfl rfl).2
      (CreatePage.page (lit "TST") (lit "456") (lit "new page") (lit "<p>This is a new page</p>"))
      (by decide) rfl⟩

/-! ## Unset fields are omitted -/

theorem structEncode_omits (fields : List Field) (hnd : (fields.map Field.name).Nodup)
    (f : Field) (hf : f ∈ fields) (he : isEmptyValue f.val = true) :
    (structEncode fields).hasKey f.name = false := by
  simp only [JSON.hasKey, structEncode, JSON.members]
  rw [Bool.eq_false_iff]
  intro hany
  rw [List.any_eq_true] at hany
  obtain ⟨m, hm, hkey⟩ := hany
  rw [List.mem_filterMap] at hm
  obtain ⟨g, hg, hgm⟩ := hm
  split at hgm
  · simp at hgm
  · rename_i hge
    simp only [Option.some.injEq] at hgm
    subst hgm
    have hname : g.name = f.name := by simpa using hkey
    have hgf : g = f := List.inj_on_of_nodup_map hnd hg hf hname
    rw [hgf] at hge
    exact hge he

theorem ProfilePicture_omits (v : ProfilePicture) (f : Field) (hf : f ∈ v.fields)
    (he : isEmptyValue f.val = true) : v.toJSON.hasKey f.name = false :=
  structEncode_omits v.fields (show ProfilePicture.names.Nodup by decide) f hf he

theorem Expendable_omits (v : Expendable) (f : Field) (hf : f ∈ v.fields)
    (he : isEmptyValue f.val = true) : v.toJSON.hasKey f.name = false :=
  structEncode_omits v.fields (show Expendable.names.Nodup by decide) f hf he

theorem Links_omits (v : Links) (f : Field) (hf : f ∈ v.fields)
    (he : isEmptyValue f.val = true) : v.toJSON.hasKey f.name = false :=
  structEncode_omits v.fields (show Links.names.Nodup by decide) f hf he

theorem By_omits (v : By) (f : Field) (hf : f ∈ v.fields)
    (he : isEmptyValue f.val = true) : v.toJSON.hasKey f.name = false :=
  structEncode_omits v.fields (show By.names.Nodup by decide) f hf he

theorem History_omits (v : History) (f : Field) (hf : f ∈ v.fields)
    (he : isEmptyValue f.val = true) : v.toJSON.hasKey f.name = false :=
  structEncode_omits v.fields (show History.names.Nodup by decide) f hf he

theorem Storage_omits (v : Storage) (f : Field) (hf : f ∈ v.fields)
    (he : isEmptyValue f.val = true) : v.toJSON.hasKey f.name = false :=
  structEncode_omits v.fields (show Storage.names.Nodup by decide) f hf he

theorem BodyPart_omits (v : BodyPart) (f : Field) (hf : f ∈ v.fields)
    (he : isEmptyValue f.val = true) : v.toJSON.hasKey f.name = false :=
  structEncode_omits v.fields (show BodyPart.names.Nodup by decide) f hf he

theorem Body_omits (v : Body) (f : Field) (hf : f ∈ v.fields)
    (he : isEmptyValue f.val = true) : v.toJSON.hasKey f.name = false :=
  structEncode_omits v.fields (show Body.names.Nodup by decide) f hf he

theorem Space_omits (v : Space) (f : Field) (hf : f ∈ v.fields)
    (he : isEmptyValue f.val = true) : v.toJSON.hasKey f.name = false :=
  structEncode_omits v.fields (show Space.names.Nodup by decide) f hf he

theorem Version_omits (v : Version) (f : Field) (hf : f ∈ v.fields)
    (he : isEmptyValue f.val = true) : v.toJSON.hasKey f.name = false :=
  structEncode_omits v.fields (show Version.names.Nodup by decide) f hf he

theorem Ancestor_omits (v : Ancestor) (f : Field) (hf : f ∈ v.fields)
    (he : isEmptyValue f.val = true) : v.toJSON.hasKey f.name = false :=
  structEncode_omits v.fields (show Ancestor.names.Nodup by decide) f hf he

theorem Page_omits (v : Page) (f : Field) (hf : f ∈ v.fields)
    (he : isEmptyValue f.val = true) : v.toJSON.hasKey f.name = false :=
  structEncode_omits v.fields (show Page.names.Nodup by decide) f hf he

/-- C8. In every struct of the data model a field that holds its zero value
(the empty string, 0, false, a nil pointer, an empty list) has no member in
the JSON encoding of the struct, so that it is written neither as null nor as
an empty string nor as 0; and the payload of `CreatePage` has no id, status,
_links or _expandable member of the page. -/
theorem unset_fields_omitted :
    (∀ (v : Page) (f : Field), f ∈ v.fields → isEmptyValue f.val = true →
        v.toJSON.hasKey f.name = false)
      ∧ (∀ (v : Body) (f : Field), f ∈ v.fields → isEmptyValue f.val = true →
        v.toJSON.hasKey f.name = false)
      ∧ (∀ (v : BodyPart) (f : Field), f ∈ v.fields → isEmptyValue f.val = true →
        v.toJSON.hasKey f.name = false)
      ∧ (∀ (v : Storage) (f : Field), f ∈ v.fields → isEmptyValue f.val = true →
        v.toJSON.hasKey f.name = false)
      ∧ (∀ (v : Space) (f : Field), f ∈ v.fields → isEmptyValue f.val = true →
        v.toJSON.hasKey f.name = false)
      ∧ (∀ (v : Version) (f : Field), f ∈ v.fields → isEmptyValue f.val = true →
        v.toJSON.hasKey f.name = false)
      ∧ (∀ (v : By) (f : Field), f ∈ v.fields → isEmptyValue f.val = true →
        v.toJSON.hasKey f.name = false)
      ∧ (∀ (v : Links) (f : Field), f ∈ v.fields → isEmptyValue f.val = true →
        v.toJSON.hasKey f.name = false)
      ∧ (∀ (v : Expendable) (f : Field), f ∈ v.fields → isEmptyValue f.val = true →
        v.toJSON.hasKey f.name = false)
      ∧ (∀ (v : Ancestor) (f : Field), f ∈ v.fields → isEmptyValue f.val = true →
        v.toJSON.hasKey f.name = false)
      ∧ (∀ (v : History) (f : Field), f ∈ v.fields → isEmptyValue f.val = true →
        v.toJSON.hasKey f.name = false)
      ∧ (∀ (v : ProfilePicture) (f : Field), f ∈ v.fields → isEmptyValue f.val = true →
        v.toJSON.hasKey f.name = false)
      ∧ (∀ space parentId title body : GoString,
        (CreatePage.page space parentId title body).toJSON.hasKey "id" = false
          ∧ (CreatePage.page space parentId title body).toJSON.hasKey "status" = false
          ∧ (CreatePage.page space parentId title body).toJSON.hasKey "_links" = false
          ∧ (CreatePage.page space parentId title body).toJSON.hasKey "_expandable" = false) := by
  refine ⟨Page_omits, Body_omits, BodyPart_omits, Storage_omits, Space_omits, Version_omits,
    By_omits, Links_omits, Expendable_omits, Ancestor_omits, History_omits,
    ProfilePicture_omits, ?_⟩
  intro space parentId title body
  refine ⟨?_, ?_, ?_, ?_⟩
  · exact Page_omits _ ⟨"id", .string []⟩ (by simp [Page.fields, CreatePage.page]) rfl
  · exact Page_omits _ ⟨"status", .string []⟩ (by simp [Page.fields, CreatePage.page]) rfl
  · exact Page_omits _ ⟨"_links", .ptr none⟩ (by simp [Page.fields, CreatePage.page]) rfl
  · exact Page_omits _ ⟨"_expandable", .ptr none⟩ (by simp [Page.fields, CreatePage.page]) rfl

/-! ## The response is decoded over the request page -/

theorem fieldIndex_matches (names : List String) (key : String) (i : Nat)
    (h : fieldIndex names key = some i) :
    ∃ n, names[i]? = some n ∧ matchesName key n = true := by
  unfold fieldIndex at h
  split at h
  · rename_i j hj
    simp only [Option.some.injEq] at h
    subst h
    have hm := List.findIdx?_of_eq_some hj
    cases hn : names[j]? with
    | none => simp [hn] at hm
    | some n =>
      simp only [hn] at hm
      exact ⟨n, rfl, by simp [matchesName, hm]⟩
  · have hm := List.findIdx?_of_eq_some h
    cases hn : names[i]? with
    | none => simp [hn] at hm
    | some n =>
      simp only [hn] at hm
      exact ⟨n, rfl, by simp [matchesName, hm]⟩

theorem decodeStruct_frame {α β : Type} (names : List String)
    (set : α → Nat → JSON → α × Option Error) (goType : String) (proj : α → β) (k : Nat)
    (hset : ∀ v i j, i ≠ k → proj (set v i j).1 = proj v)
    (members : List (String × JSON))
    (hno : ∀ m ∈ members, fieldIndex names m.1 ≠ some k) (v : α) :
    proj (decodeStruct names set goType v (.obj members)).1 = proj v := by
  simp only [decodeStruct]
  have key : ∀ (ms : List (String × JSON)) (acc : α × Option Error),
      (∀ m ∈ ms, fieldIndex names m.1 ≠ some k) →
      proj (ms.foldl (fun acc m =>
        match fieldIndex names m.1 with
        | none => acc
        | some i => ((set acc.1 i m.2).1, saveError acc.2 (set acc.1 i m.2).2)) acc).1
        = proj acc.1 := by
    intro ms
    induction ms with
    | nil => intro acc _; rfl
    | cons m ms ih =>
      intro acc hms
      rw [List.foldl_cons, ih _ (fun x hx => hms x (List.mem_cons_of_mem _ hx))]
      cases hfi : fieldIndex names m.1 with
      | none => rfl
      | some i =>
        have hik : i ≠ k := by
          intro hik
          exact hms m (List.mem_cons_self _ _) (by rw [hfi, hik])
        exact hset acc.1 i m.2 hik
  exact key members (v, none) hno

theorem Page_decode_frame {β : Type} (proj : Page → β) (k : Nat) (name : String)
    (hname : Page.names[k]? = some name)
    (hset : ∀ v i j, i ≠ k → proj (Page.set v i j).1 = proj v)
    (members : List (String × JSON))
    (hno : ∀ m ∈ members, matchesName m.1 name = false) (v : Page) :
    proj (Page.decode v (.obj members)).1 = proj v := by
  apply decodeStruct_frame Page.names Page.set _ proj k hset members
  intro m hm hfi
  obtain ⟨n, hn, hmatch⟩ := fieldIndex_matches _ _ _ hfi
  rw [hname] at hn
  simp only [Option.some.injEq] at hn
  subst hn
  rw [hno m hm] at hmatch
  exact Bool.false_ne_true hmatch

theorem Page_decode_keeps (members : List (String × JSON)) (v : Page) :
    keepsUnnamed members v (Page.decode v (.obj members)).1 := by
  unfold keepsUnnamed
  refine ⟨?_, ?_, ?_, ?_, ?_, ?_, ?_, ?_, ?_, ?_⟩
  · intro hno
    refine Page_decode_frame (fun p => p.Expendable) 0 "_expandable" rfl ?_ members hno v
    intro w i x hi
    rcases i with _ | _ | _ | _ | _ | _ | _ | _ | _ | _ | _ <;>
      first | rfl | exact absurd rfl hi
  · intro hno
    refine Page_decode_frame (fun p => p.Links) 1 "_links" rfl ?_ members hno v
    intro w i x hi
    rcases i with _ | _ | _ | _ | _ | _ | _ | _ | _ | _ | _ <;>
      first | rfl | exact absurd rfl hi
  · intro hno
    refine Page_decode_frame (fun p => p.ID) 2 "id" rfl ?_ members hno v
    intro w i x hi
    rcases i with _ | _ | _ | _ | _ | _ | _ | _ | _ | _ | _ <;>
      first | rfl | exact absurd rfl hi
  · intro hno
    refine Page_decode_frame (fun p => p.Title) 3 "title" rfl ?_ members hno v
    intro w i x hi
    rcases i with _ | _ | _ | _ | _ | _ | _ | _ | _ | _ | _ <;>
      first | rfl | exact absurd rfl hi
  · intro hno
    refine Page_decode_frame (fun p => p.«Type») 4 "type" rfl ?_ members hno v
    intro w i x hi
    rcases i with _ | _ | _ | _ | _ | _ | _ | _ | _ | _ | _ <;>
      first | rfl | exact absurd rfl hi
  · intro hno
    refine Page_decode_frame (fun p => p.Body) 5 "body" rfl ?_ members hno v
    intro w i x hi
    rcases i with _ | _ | _ | _ | _ | _ | _ | _ | _ | _ | _ <;>
      first | rfl | exact absurd rfl hi
  · intro hno
    refine Page_decode_frame (fun p => p.Status) 6 "status" rfl ?_ members hno v
    intro w i x hi
    rcases i with _ | _ | _ | _ | _ | _ | _ | _ | _ | _ | _ <;>
      first | rfl | exact absurd rfl hi
  · intro hno
    refine Page_decode_frame (fun p => p.Space) 7 "space" rfl ?_ members hno v
    intro w i x hi
    rcases i with _ | _ | _ | _ | _ | _ | _ | _ | _ | _ | _ <;>
      first | rfl | exact absurd rfl hi
  · intro hno
    refine Page_decode_frame (fun p => p.Version) 8 "version" rfl ?_ members hno v
    intro w i x hi
    rcases i with _ | _ | _ | _ | _ | _ | _ | _ | _ | _ | _ <;>
      first | rfl | exact absurd rfl hi
  · intro hno
    refine Page_decode_frame (fun p => p.Ancestors) 9 "ancestors" rfl ?_ members hno v
    intro w i x hi
    rcases i with _ | _ | _ | _ | _ | _ | _ | _ | _ | _ | _ <;>
      first | rfl | exact absurd rfl hi

/-- C10, as stated, fails: the response has no member named `title`, only one
named `TITLE`, and yet the page `CreatePage` returns, with a nil error, has
the title of the response and not the title put in the request. -/
theorem CreatePage_title_replaced :
    (match Response.upperCase.Body with
      | .value j => j.hasKey "title"
      | .invalid _ => true) = false
      ∧ (Client.CreatePage {} (Env.sample (.ok Response.upperCase)) (lit "TST") (lit "456")
          (lit "new page") (lit "<p>x</p>")).2 = none
      ∧ (Client.CreatePage {} (Env.sample (.ok Response.upperCase)) (lit "TST") (lit "456")
          (lit "new page") (lit "<p>x</p>")).1.Title = lit "changed"
      ∧ (CreatePage.page (lit "TST") (lit "456") (lit "new page") (lit "<p>x</p>")).Title
          ≠ lit "changed" := by
  decide

/-- C10, amended. `CreatePage` and `UpdatePage` decode the response over the
page of the request: when the response body is a JSON object, each top-level
field of the page that no member of the response denotes, by its exact name
or by a name equal to it under case folding, keeps the value put in the
request; and when the body is the empty object, the returned page is the page
of the request and the error is nil. -/
theorem response_merged_into_request (c : Client) (env : Env)
    (space parentId id title body : GoString) (version : Int)
    (members : List (String × JSON)) :
    (∀ req resp, CreatePage.request c env space parentId title body = .ok req →
        env.Do (c.authorize req) = .ok resp → resp.Body = .value (.obj members) →
        keepsUnnamed members (CreatePage.page space parentId title body)
            (c.CreatePage env space parentId title body).1
          ∧ (members = [] → c.CreatePage env space parentId title body
              = (CreatePage.page space parentId title body, none)))
      ∧ (∀ req resp, UpdatePage.request c env space id title body version = .ok req →
        env.Do (c.authorize req) = .ok resp → resp.Body = .value (.obj members) →
        keepsUnnamed members (UpdatePage.page space id title body version)
            (c.UpdatePage env space id title body version).1
          ∧ (members = [] → c.UpdatePage env space id title body version
              = (UpdatePage.page space id title body version, none))) := by
  constructor
  · intro req resp hreq hdo hbody
    have hres : c.CreatePage env space parentId title body
        = Page.decode (CreatePage.page space parentId title body) (.obj members) := by
      simp [Client.CreatePage, hreq, Client.do, hdo, hbody, Decode]
    rw [hres]
    refine ⟨Page_decode_keeps _ _, ?_⟩
    intro hm
    subst hm
    rfl
  · intro req resp hreq hdo hbody
    have hres : c.UpdatePage env space id title body version
        = Page.decode (UpdatePage.page space id title body version) (.obj members) := by
      simp [Client.UpdatePage, hreq, Client.do, hdo, hbody, Decode]
    rw [hres]
    refine ⟨Page_decode_keeps _ _, ?_⟩
    intro hm
    subst hm
    rfl

theorem response_merged_into_request_witness :
    keepsUnnamed [("id", .str (lit "64819209"))]
        (CreatePage.page (lit "TST") (lit "456") (lit "new page") (lit "<p>x</p>"))
        (Client.CreatePage {} (Env.sample (.ok Response.created)) (lit "TST") (lit "456")
          (lit "new page") (lit "<p>x</p>")).1
      ∧ keepsUnnamed [("id", .str (lit "64819209"))]
        (UpdatePage.page (lit "TST") (lit "64819209") (lit "new page") (lit "<p>x</p>") 2)
        (Client.UpdatePage {} (Env.sample (.ok Response.created)) (lit "TST") (lit "64819209")
          (lit "new page") (lit "<p>x</p>") 2).1 :=
  ⟨((response_merged_into_request {} (Env.sample (.ok Response.created)) (lit "TST") (lit "456")
      (lit "64819209") (lit "new page") (lit "<p>x</p>") 2
      [("id", .str (lit "64819209"))]).1 _ Response.created rfl rfl rfl).1,
    ((response_merged_into_request {} (Env.sample (.ok Response.created)) (lit "TST") (lit "456")
      (lit "64819209") (lit "new page") (lit "<p>x</p>") 2
      [("id", .str (lit "64819209"))]).2 _ Response.created rfl rfl rfl).1⟩

end Confluence
